import Mathlib

/-!
Shipping-rate resolution and fulfilment-request construction.

A shallow embedding of the four serverless functions of the repository

* `functions/get-shipping-options.js`  (namespace `GetShippingOptions`)
* `functions/get-shipping-price.js`    (namespace `GetShippingPrice`)
* `functions/create-checkout.js`       (namespace `CreateCheckout`)
* `functions/webhook-stripe.js`        (namespace `WebhookStripe`)

Modelling conventions:

* JavaScript numbers are `JSNum`: `NaN`, the two infinities, or a finite value kept as the
  rational it is equal to.  Reading a decimal text and multiplying round to the nearest IEEE 754
  double, ties to even (`toDouble`); the sign of zero is not represented.
* A JSON field the source reads through a guard (`Array.isArray`, `?.`, `!= null`, `||`, a
  truthiness test) is an `Option`; a field the source dereferences unconditionally on every path is
  a plain field of the record.
* JSON fields the source uses as text (ids, codes, price values, address parts) are strings; a
  string is truthy when it is present and non-empty.  A request body that parses is an object.
* Network calls are passed in as functions from the request that is sent to the outcome that
  comes back; what the handlers send out is returned next to the HTTP answer.
* HTTP headers (CORS, `Allow`) and console logging are left out.
-/

namespace Yes

/-! ## JavaScript values -/

/-- A JavaScript number; a finite one is held as the rational it is equal to. -/
inductive JSNum where
  | nan
  | posInf
  | negInf
  | fin (q : ℚ)
deriving DecidableEq

namespace JSNum

/-- The test `isNaN(x)`. -/
def isNaN : JSNum → Bool
  | nan => true
  | _ => false

/-- The test `x > 0`. -/
def isPos : JSNum → Bool
  | posInf => true
  | fin q => decide (0 < q)
  | _ => false

/-- The integer nearest to `m`, a tie going to the even one. -/
def roundHalfEven (m : ℚ) : ℤ :=
  if m - ⌊m⌋ < 1 / 2 then ⌊m⌋
  else if 1 / 2 < m - ⌊m⌋ then ⌊m⌋ + 1
  else if ⌊m⌋ % 2 = 0 then ⌊m⌋ else ⌊m⌋ + 1

/-- The binary logarithm of `n`, rounded down, by repeated halving (`fuel` bounds the number
of halvings; `n` itself is enough). -/
def log2Fuel : ℕ → ℕ → ℕ
  | 0, _ => 0
  | fuel + 1, n => if n < 2 then 0 else log2Fuel fuel (n / 2) + 1

/-- The exponent `e` of the binade of a non-zero `x`: `2^e ≤ |x| < 2^(e+1)`.  The binary
lengths of numerator and denominator give it up to one, and a comparison settles it. -/
def binade (x : ℚ) : ℤ :=
  let e0 : ℤ := (log2Fuel x.num.natAbs x.num.natAbs : ℤ) - (log2Fuel x.den x.den : ℤ)
  if (2 : ℚ) ^ e0 ≤ |x| then e0 else e0 - 1

/-- The Number value for the real `x`: the IEEE 754 binary64 value nearest to `x`, ties to
even.  In the binade `2^e ≤ |x| < 2^(e+1)` the doubles are the multiples of `2^(e-52)`, and
below `2^(-1022)` the multiples of `2^(-1074)`; a result of magnitude `2^1024` is infinite. -/
def toDouble (x : ℚ) : JSNum :=
  if x = 0 then fin 0
  else
    let quantum : ℚ := (2 : ℚ) ^ (max (binade x) (-1022) - 52)
    let y : ℚ := (roundHalfEven (x / quantum) : ℚ) * quantum
    if (2 : ℚ) ^ (1024 : ℕ) ≤ |y| then (if 0 < x then posInf else negInf) else fin y

/-- The subtraction `a - b`, read by the comparators only for its sign.  The difference is
kept exact: rounding the difference of two doubles to a double does not change its sign. -/
def sub : JSNum → JSNum → JSNum
  | nan, _ => nan
  | _, nan => nan
  | posInf, posInf => nan
  | posInf, _ => posInf
  | negInf, negInf => nan
  | negInf, _ => negInf
  | fin _, posInf => negInf
  | fin _, negInf => posInf
  | fin a, fin b => fin (a - b)

/-- The product `a * b`. -/
def mul : JSNum → JSNum → JSNum
  | nan, _ => nan
  | _, nan => nan
  | fin a, fin b => toDouble (a * b)
  | fin a, posInf => if a = 0 then nan else if 0 < a then posInf else negInf
  | fin a, negInf => if a = 0 then nan else if 0 < a then negInf else posInf
  | posInf, fin b => if b = 0 then nan else if 0 < b then posInf else negInf
  | negInf, fin b => if b = 0 then nan else if 0 < b then negInf else posInf
  | posInf, posInf => posInf
  | negInf, negInf => posInf
  | posInf, negInf => negInf
  | negInf, posInf => negInf

/-- The function `Math.round`: the integer nearest to `x`, a tie going to the larger one. -/
def round : JSNum → JSNum
  | fin q => fin (⌊q + 1 / 2⌋ : ℤ)
  | x => x

/-- Numeric order `a ≤ b` between two numbers; false as soon as one of them is `NaN`. -/
def le : JSNum → JSNum → Prop
  | nan, _ => False
  | _, nan => False
  | negInf, _ => True
  | _, posInf => True
  | posInf, _ => False
  | _, negInf => False
  | fin a, fin b => a ≤ b

/-- Numeric order `a < b` between two numbers; false as soon as one of them is `NaN`. -/
def lt : JSNum → JSNum → Prop
  | nan, _ => False
  | _, nan => False
  | posInf, _ => False
  | _, negInf => False
  | negInf, _ => True
  | _, posInf => True
  | fin a, fin b => a < b

instance decLe : (a b : JSNum) → Decidable (le a b)
  | nan, _ => isFalse (by simp [le])
  | posInf, nan => isFalse (by simp [le])
  | negInf, nan => isFalse (by simp [le])
  | fin _, nan => isFalse (by simp [le])
  | negInf, posInf => isTrue (by simp [le])
  | negInf, negInf => isTrue (by simp [le])
  | negInf, fin _ => isTrue (by simp [le])
  | posInf, posInf => isTrue (by simp [le])
  | fin _, posInf => isTrue (by simp [le])
  | posInf, negInf => isFalse (by simp [le])
  | posInf, fin _ => isFalse (by simp [le])
  | fin _, negInf => isFalse (by simp [le])
  | fin a, fin b => if h : a ≤ b then isTrue (by simpa [le] using h) else isFalse (by simpa [le] using h)

instance decLt : (a b : JSNum) → Decidable (lt a b)
  | nan, _ => isFalse (by simp [lt])
  | posInf, nan => isFalse (by simp [lt])
  | negInf, nan => isFalse (by simp [lt])
  | fin _, nan => isFalse (by simp [lt])
  | posInf, posInf => isFalse (by simp [lt])
  | posInf, negInf => isFalse (by simp [lt])
  | posInf, fin _ => isFalse (by simp [lt])
  | negInf, negInf => isFalse (by simp [lt])
  | fin _, negInf => isFalse (by simp [lt])
  | negInf, posInf => isTrue (by simp [lt])
  | negInf, fin _ => isTrue (by simp [lt])
  | fin _, posInf => isTrue (by simp [lt])
  | fin a, fin b => if h : a < b then isTrue (by simpa [lt] using h) else isFalse (by simpa [lt] using h)

end JSNum

/-- Truthiness of an optional string: present and not the empty string. -/
def truthy : Option String → Bool
  | some s => decide (s ≠ "")
  | none => false

/-- The expression `x || d` on an optional string. -/
def orElse (x : Option String) (d : String) : String :=
  match x with
  | some s => if s ≠ "" then s else d
  | none => d

/-- The method `s.startsWith(p)`. -/
def startsWith (s p : String) : Bool :=
  p.toList.isPrefixOf s.toList

/-- The method `s.includes(c)` for a one-character needle. -/
def includesChar (s : String) (c : Char) : Bool :=
  s.toList.contains c

/-- The characters matched by `\s` and removed by `trim()`: WhiteSpace and LineTerminator. -/
def isJsWhiteSpace (c : Char) : Bool :=
  let n := c.toNat
  n = 9 || n = 10 || n = 11 || n = 12 || n = 13 || n = 32 || n = 160 || n = 5760 ||
  (8192 ≤ n && n ≤ 8202) || n = 8232 || n = 8233 || n = 8239 || n = 8287 || n = 12288 ||
  n = 65279

/-- The method `s.trim()`. -/
def trim (s : String) : String :=
  String.mk (((s.toList.dropWhile isJsWhiteSpace).reverse.dropWhile isJsWhiteSpace).reverse)

/-- The call `s.replace(/\s+/g, '')`: every white-space character is removed. -/
def stripWhiteSpace (s : String) : String :=
  String.mk (s.toList.filter (fun c => !isJsWhiteSpace c))

/-- Decimal digit test. -/
def isDigit (c : Char) : Bool :=
  48 ≤ c.toNat && c.toNat ≤ 57

/-- The natural number written by a list of decimal digits. -/
def digitsToNat (ds : List Char) : ℕ :=
  ds.foldl (fun acc c => 10 * acc + (c.toNat - 48)) 0

/-- Split off an optional leading sign; the flag tells whether it was `-`. -/
def takeSign : List Char → Bool × List Char
  | '-' :: r => (true, r)
  | '+' :: r => (false, r)
  | cs => (false, cs)

/-- The value of an optional ExponentPart at the head of `cs` (0 when there is none). -/
def exponentPart (cs : List Char) : ℤ :=
  match cs with
  | c :: r =>
    if c = 'e' ∨ c = 'E' then
      let sr := takeSign r
      let ds := sr.2.takeWhile isDigit
      if ds = [] then 0
      else if sr.1 then -(digitsToNat ds : ℤ) else (digitsToNat ds : ℤ)
    else 0
  | [] => 0

/-- The rational `m · 10^e`. -/
def scale10 (m : ℕ) (e : ℤ) : ℚ :=
  if 0 ≤ e then (m : ℚ) * (10 : ℚ) ^ e.toNat else (m : ℚ) / (10 : ℚ) ^ (-e).toNat

/-- What the longest prefix of a text that is a StrDecimalLiteral denotes: nothing, an
infinity, or the mathematical value of a decimal literal. -/
inductive StrDecimal where
  | notANumber
  | infinity (negative : Bool)
  | finite (mv : ℚ)
deriving DecidableEq

/-- Reading a text as `parseFloat` does: leading white space is skipped and the longest prefix
that is a StrDecimalLiteral is taken. -/
def readStrDecimal (s : String) : StrDecimal :=
  let sr := takeSign (s.toList.dropWhile isJsWhiteSpace)
  let cs := sr.2
  if "Infinity".toList.isPrefixOf cs then .infinity sr.1
  else
    let ip := cs.takeWhile isDigit
    let r1 := cs.dropWhile isDigit
    let fp := match r1 with
      | '.' :: r => r.takeWhile isDigit
      | _ => []
    let r2 := match r1 with
      | '.' :: r => r.dropWhile isDigit
      | _ => r1
    if ip = [] ∧ fp = [] then .notANumber
    else
      let v := scale10 (digitsToNat (ip ++ fp)) (exponentPart r2 - fp.length)
      .finite (if sr.1 then -v else v)

/-- The global function `parseFloat` on a string: `NaN` when no prefix is a StrDecimalLiteral,
else the Number value for the mathematical value read. -/
def parseFloat (s : String) : JSNum :=
  match readStrDecimal s with
  | .notANumber => JSNum.nan
  | .infinity negative => if negative then JSNum.negInf else JSNum.posInf
  | .finite mv => JSNum.toDouble mv

/-- The call `parseFloat(x)` on a value that may be `undefined` or `null`. -/
def parseFloatOpt : Option String → JSNum
  | some s => parseFloat s
  | none => JSNum.nan

/-- The call `parseInt(x, 10)` on an optional string. -/
def parseInt10 : Option String → JSNum
  | none => JSNum.nan
  | some s =>
    let sr := takeSign (s.toList.dropWhile isJsWhiteSpace)
    let ds := sr.2.takeWhile isDigit
    if ds = [] then JSNum.nan
    else JSNum.toDouble (if sr.1 then -(digitsToNat ds : ℚ) else (digitsToNat ds : ℚ))

/-! ## `Array.prototype.sort` -/

/-- Insert `x`, which stood before every element of the sorted list, keeping it in front of the
elements it does not have to follow: it moves past `y` only when `cmp x y > 0`. -/
def sortInsert {α : Type} (cmp : α → α → JSNum) (x : α) : List α → List α
  | [] => [x]
  | y :: ys => if (cmp x y).isPos then y :: sortInsert cmp x ys else x :: y :: ys

/-- The method `Array.prototype.sort(cmp)` as a stable sort: `a` is put after `b` only when
`cmp a b > 0`, and a comparator result of `NaN` counts as `0`.  Every stable sort gives this
result when the comparator is consistent.  With an inconsistent one (a `NaN` price) the
language leaves the order to the engine, whose result can differ from this one; the theorems
that read the order either assume that no price is `NaN` or look at a list the engine leaves
in place. -/
def jsSort {α : Type} (cmp : α → α → JSNum) : List α → List α
  | [] => []
  | x :: xs => sortInsert cmp x (jsSort cmp xs)

/-! ## The rate API -/

/-- The object `price.total` of a quote. -/
structure Total where
  value : Option String
deriving DecidableEq

/-- The object `price` of a quote. -/
structure Price where
  total : Option Total
deriving DecidableEq

/-- One element of `quotes`. -/
structure Quote where
  price : Option Price
deriving DecidableEq

/-- The object `carrier` of a shipping option. -/
structure Carrier where
  code : String
deriving DecidableEq

/-- The object `requirements` of a shipping option. -/
structure Requirements where
  is_service_point_required : Bool
deriving DecidableEq

/-- One element of `json.data`; `quotes` is `none` when it is not an array. -/
structure ShippingOption where
  code : String
  carrier : Carrier
  requirements : Requirements
  quotes : Option (List Quote)
deriving DecidableEq

/-- The value `res.json()` resolves to. -/
inductive RateJson where
  | null
  | noData
  | data (l : List ShippingOption)
deriving DecidableEq

/-- What `fetch` followed by `res.json()` gives: a rejected `fetch`, a body that is not JSON
(`res.json()` rejects), or a parsed body next to the HTTP status that came with it. -/
inductive FetchOutcome where
  | networkError
  | invalidJson (status : ℕ)
  | json (status : ℕ) (body : RateJson)
deriving DecidableEq

/-- The standard parcel of the listing request. -/
structure Dimensions where
  length : ℕ
  width : ℕ
  height : ℕ
  unit : String
deriving DecidableEq

/-- The object `functionalities` of a rate request. -/
structure Functionalities where
  b2c : Bool
  is_service_point_required : Option Bool
deriving DecidableEq

/-- The body `bodyV3` posted to `fetch-shipping-options`, with the credentials of the
`Authorization` header (`Basic` followed by the base64 of `user:pass`). -/
structure RateRequest where
  authUser : Option String
  authPass : Option String
  from_country_code : String
  from_postal_code : Option String
  to_country_code : String
  to_postal_code : Option String
  weightValue : ℚ
  weightUnit : String
  dimensions : Option Dimensions
  functionalities : Functionalities
  service_point_id : Option String
  carrier_code : Option String
deriving DecidableEq

/-- The environment variables the rate functions read. -/
structure RateEnv where
  SENDCLOUD_PUBLIC_KEY : Option String
  SENDCLOUD_SECRET_KEY : Option String
  SENDCLOUD_SENDER_COUNTRY : Option String
  SENDCLOUD_SENDER_POSTAL : Option String
deriving DecidableEq

/-- The object `shipping` of a request body, as the rate functions read it. -/
structure Shipping where
  id : Option String
  carrier_code : Option String
  country : Option String
  postal_code : Option String
deriving DecidableEq

/-- The parsed body of a request: `shipping` is `none` when the field is missing or falsy. -/
structure Payload where
  shipping : Option Shipping
deriving DecidableEq

/-- The event a rate function receives; `payload` is `none` when `JSON.parse(event.body)`
throws. -/
structure Event where
  httpMethod : String
  payload : Option Payload
deriving DecidableEq

/-- A thrown error: one raised by the source with its message, or one raised by the runtime
(a `TypeError`, a rejected `fetch`, a body that is not JSON). -/
inductive JSError where
  | error (message : String)
  | runtime
deriving DecidableEq

deriving instance DecidableEq for Except

/-- The value `o.quotes[0]?.price?.total?.value`, `none` when it is `undefined` or `null`. -/
def firstQuoteValue (o : ShippingOption) : Option String :=
  match o.quotes with
  | some (q :: _) =>
    match q.price with
    | some p =>
      match p.total with
      | some t => t.value
      | none => none
    | none => none
  | _ => none

/-- The number `parseFloat(o.quotes[0].price.total.value)` the two comparators read.  They run
only on options that passed the base filter, where the value is present; elsewhere the access
would throw and the model gives `NaN`. -/
def parsedPrice (o : ShippingOption) : JSNum :=
  parseFloatOpt (firstQuoteValue o)

/-- The comparator `(a, b) => parseFloat(a…value) - parseFloat(b…value)`. -/
def byPrice (a b : ShippingOption) : JSNum :=
  (parsedPrice a).sub (parsedPrice b)

namespace GetShippingOptions

/-- The body of an answer of the listing function. -/
inductive Body where
  | empty
  | text (s : String)
  | errorMessage (e : JSError)
  | options (opts : List ShippingOption)
deriving DecidableEq

/-- An HTTP answer of the listing function. -/
structure Response where
  statusCode : ℕ
  body : Body
deriving DecidableEq

/-- The request body `bodyV3` of the listing function. -/
def bodyV3 (env : RateEnv) (shipping : Shipping) : RateRequest :=
  { authUser := env.SENDCLOUD_PUBLIC_KEY
    authPass := env.SENDCLOUD_SECRET_KEY
    from_country_code := orElse env.SENDCLOUD_SENDER_COUNTRY "FR"
    from_postal_code := env.SENDCLOUD_SENDER_POSTAL
    to_country_code := orElse shipping.country "FR"
    to_postal_code := shipping.postal_code
    weightValue := 1 / 2
    weightUnit := "kg"
    dimensions := some { length := 30, width := 20, height := 5, unit := "cm" }
    functionalities := { b2c := true, is_service_point_required := some (truthy shipping.id) }
    service_point_id := if truthy shipping.id then shipping.id else none
    carrier_code := none }

/-- The base filter: `quotes` is an array, its first quote has a price value, and the option
is not of the letter class. -/
def baseFilter (o : ShippingOption) : Bool :=
  o.quotes.isSome && (firstQuoteValue o).isSome && !startsWith o.code "sendcloud:letter"

/-- The loop over the sorted home-delivery options: an option of a carrier not seen yet is
pushed, and the loop stops as soon as three have been pushed. -/
def distinctLoop : List ShippingOption → List ShippingOption → List String → List ShippingOption
  | [], distinct, _ => distinct
  | o :: rest, distinct, seen =>
    let distinct1 := if seen.contains o.carrier.code then distinct else distinct ++ [o]
    let seen1 := if seen.contains o.carrier.code then seen else o.carrier.code :: seen
    if distinct1.length = 3 then distinct1 else distinctLoop rest distinct1 seen1

/-- The list `opts` after the mode split and the final sort. -/
def selectOptions (shipping : Shipping) (data : List ShippingOption) : List ShippingOption :=
  let opts := data.filter baseFilter
  let opts1 :=
    if truthy shipping.id then
      opts.filter (fun o =>
        o.requirements.is_service_point_required &&
        decide (some o.carrier.code = shipping.carrier_code))
    else
      let homeOnly := opts.filter (fun o => !o.requirements.is_service_point_required)
      distinctLoop (jsSort byPrice homeOnly) [] []
  jsSort byPrice opts1

/-- The `try` block of the listing function. -/
def fetchOptions (shipping : Shipping) (outcome : FetchOutcome) : Except JSError Response :=
  match outcome with
  | .networkError => .error .runtime
  | .invalidJson _ => .error .runtime
  | .json _ .null => .error .runtime
  | .json _ .noData => .ok { statusCode := 200, body := .options [] }
  | .json _ (.data l) =>
    if l.length = 0 then .ok { statusCode := 200, body := .options [] }
    else .ok { statusCode := 200, body := .options (selectOptions shipping l) }

/-- The exported `handler` of `get-shipping-options.js`. -/
def handler (env : RateEnv) (fetch : RateRequest → FetchOutcome) (event : Event) : Response :=
  if event.httpMethod = "OPTIONS" then { statusCode := 204, body := .empty }
  else if event.httpMethod ≠ "POST" then { statusCode := 405, body := .text "Method Not Allowed" }
  else
    match event.payload with
    | none => { statusCode := 400, body := .text "Invalid JSON" }
    | some payload =>
      match payload.shipping with
      | none => { statusCode := 400, body := .text "Missing parameter: shipping" }
      | some shipping =>
        match fetchOptions shipping (fetch (bodyV3 env shipping)) with
        | .ok r => r
        | .error e => { statusCode := 500, body := .errorMessage e }

end GetShippingOptions

/-- The option the pricing functions fall back to step by step: `first` when it was found,
else `second` when it was found, else the first element of `data`. -/
def firstFound (first second : Option ShippingOption) (data : List ShippingOption) :
    Option ShippingOption :=
  match first with
  | some o => some o
  | none =>
    match second with
    | some o => some o
    | none => data.head?

/-- The read `q.price.total.value`, which throws a `TypeError` when `price` or `total` is
missing. -/
def quoteValue (q : Quote) : Except JSError (Option String) :=
  match q.price with
  | none => .error .runtime
  | some p =>
    match p.total with
    | none => .error .runtime
    | some t => .ok t.value

namespace GetShippingPrice

/-- The body of an answer of the pricing function. -/
inductive Body where
  | empty
  | text (s : String)
  | errorMessage (e : JSError)
  | amount (a : JSNum)
deriving DecidableEq

/-- An HTTP answer of the pricing function. -/
structure Response where
  statusCode : ℕ
  body : Body
deriving DecidableEq

/-- The request body `bodyV3` of the pricing function. -/
def bodyV3 (env : RateEnv) (shipping : Shipping) : RateRequest :=
  { authUser := env.SENDCLOUD_PUBLIC_KEY
    authPass := env.SENDCLOUD_SECRET_KEY
    from_country_code := orElse env.SENDCLOUD_SENDER_COUNTRY "FR"
    from_postal_code := env.SENDCLOUD_SENDER_POSTAL
    to_country_code := orElse shipping.country "FR"
    to_postal_code := shipping.postal_code
    weightValue := 1
    weightUnit := "kg"
    dimensions := none
    functionalities :=
      { b2c := true
        is_service_point_required := if truthy shipping.id then some true else none }
    service_point_id := none
    carrier_code := none }

/-- Step 6, "Choose best option". -/
def chooseOption (shipping : Shipping) (data : List ShippingOption) : Option ShippingOption :=
  firstFound
    (if truthy shipping.id then
      data.find? (fun o => o.requirements.is_service_point_required)
    else none)
    (data.find? (fun o => startsWith o.code "colissimo:home"))
    data

/-- Step 7, "Extract quote", on the chosen option. -/
def extractAmount (option : ShippingOption) : Except JSError JSNum :=
  match option.quotes.getD [] with
  | [] => .error (.error "no quotes returned")
  | q :: _ =>
    match quoteValue q with
    | .error e => .error e
    | .ok v =>
      let totalValue := parseFloatOpt v
      if totalValue.isNaN then .error (.error "invalid quote price")
      else .ok (JSNum.round (totalValue.mul (JSNum.fin 100)))

/-- The part of the `try` block that follows `res.json()`. -/
def priceOfJson (shipping : Shipping) : RateJson → Except JSError JSNum
  | .null => .error .runtime
  | .noData => .error (.error "no options returned")
  | .data l =>
    if l.length = 0 then .error (.error "no options returned")
    else
      match chooseOption shipping l with
      | none => .error .runtime
      | some option => extractAmount option

/-- The `try` block of the pricing function. -/
def fetchPrice (shipping : Shipping) (outcome : FetchOutcome) : Except JSError JSNum :=
  match outcome with
  | .networkError => .error .runtime
  | .invalidJson _ => .error .runtime
  | .json _ body => priceOfJson shipping body

/-- The two exits of the `try` block: step 8 answers 200 with the amount, the `catch` clause
answers 500 with the message of the error. -/
def respond : Except JSError JSNum → Response
  | .ok amountCents => { statusCode := 200, body := .amount amountCents }
  | .error e => { statusCode := 500, body := .errorMessage e }

/-- The exported `handler` of `get-shipping-price.js`. -/
def handler (env : RateEnv) (fetch : RateRequest → FetchOutcome) (event : Event) : Response :=
  if event.httpMethod = "OPTIONS" then { statusCode := 204, body := .empty }
  else if event.httpMethod ≠ "POST" then { statusCode := 405, body := .text "Method Not Allowed" }
  else
    match event.payload with
    | none => { statusCode := 400, body := .text "Invalid JSON" }
    | some payload =>
      match payload.shipping with
      | none => { statusCode := 400, body := .text "Missing parameter: shipping" }
      | some shipping => respond (fetchPrice shipping (fetch (bodyV3 env shipping)))

end GetShippingPrice

namespace CreateCheckout

/-- The request body `bodyV3` of `getShippingAmountCents`. -/
def bodyV3 (env : RateEnv) (shipping : Shipping) : RateRequest :=
  { authUser := env.SENDCLOUD_PUBLIC_KEY
    authPass := env.SENDCLOUD_SECRET_KEY
    from_country_code := orElse env.SENDCLOUD_SENDER_COUNTRY "FR"
    from_postal_code := env.SENDCLOUD_SENDER_POSTAL
    to_country_code := orElse shipping.country "FR"
    to_postal_code := shipping.postal_code
    weightValue := 1
    weightUnit := "kg"
    dimensions := none
    functionalities :=
      { b2c := true
        is_service_point_required := if truthy shipping.id then some true else none }
    service_point_id := none
    carrier_code :=
      if truthy shipping.id then shipping.carrier_code
      else some (orElse shipping.carrier_code "colissimo") }

/-- The selection "soit précisément le service point, soit colissimo home", then the first
option of the list. -/
def chooseOption (shipping : Shipping) (data : List ShippingOption) : Option ShippingOption :=
  firstFound
    (if truthy shipping.id then
      data.find? (fun o => o.requirements.is_service_point_required)
    else
      data.find? (fun o => startsWith o.code "colissimo:home"))
    none
    data

/-- The end of `getShippingAmountCents`: the first quote of the chosen option is priced. -/
def extractAmount (option : ShippingOption) : Except JSError JSNum :=
  match option.quotes with
  | some (quote :: _) =>
    match quoteValue quote with
    | .error e => .error e
    | .ok v =>
      let value := parseFloatOpt v
      if value.isNaN then .error (.error "Prix de livraison invalide")
      else .ok (JSNum.round (value.mul (JSNum.fin 100)))
  | _ => .error .runtime

/-- The part of `getShippingAmountCents` that follows `res.json()`. -/
def amountOfJson (shipping : Shipping) : RateJson → Except JSError JSNum
  | .null => .error .runtime
  | .noData => .error (.error "Aucune option de livraison disponible")
  | .data l =>
    if l.length = 0 then .error (.error "Aucune option de livraison disponible")
    else
      match chooseOption shipping l with
      | none => .error .runtime
      | some option => extractAmount option

/-- The function `getShippingAmountCents`; an `error` is a thrown exception. -/
def getShippingAmountCents (env : RateEnv) (fetch : RateRequest → FetchOutcome)
    (shipping : Shipping) : Except JSError JSNum :=
  match fetch (bodyV3 env shipping) with
  | .networkError => .error .runtime
  | .invalidJson _ => .error .runtime
  | .json _ body => amountOfJson shipping body

end CreateCheckout

namespace WebhookStripe

/-- The object parsed from `session.metadata.shipping`. -/
structure Shipping where
  id : Option String
  country : Option String
  country_code : Option String
  shipping_option_code : Option String
  shipping_method : Option String
  phone : Option String
  postal_code : Option String
  state_province_code : Option String
  street : Option String
  house_number : Option String
  city : Option String
deriving DecidableEq

/-- The field `session.metadata.shipping`: missing or empty (read as `{}`), a text
`JSON.parse` rejects, or a parsed object. -/
inductive MetadataShipping where
  | absent
  | invalid
  | parsed (s : Shipping)
deriving DecidableEq

/-- The object `session.metadata`. -/
structure Metadata where
  shipping : MetadataShipping
  name : Option String
  email : Option String
  dedicace : Option String
deriving DecidableEq

/-- The object `session.customer_details`. -/
structure CustomerDetails where
  phone : Option String
deriving DecidableEq

/-- The checkout session carried by the event. -/
structure Session where
  id : String
  metadata : Option Metadata
  customer_details : Option CustomerDetails
deriving DecidableEq

/-- The event `stripe.webhooks.constructEvent` returns. -/
structure StripeEvent where
  type : String
  session : Session
deriving DecidableEq

/-- The environment variables the webhook reads for the shipment. -/
structure Env where
  SENDCLOUD_SENDER_NAME : Option String
  SENDCLOUD_SENDER_EMAIL : Option String
  SENDCLOUD_SENDER_STREET : Option String
  SENDCLOUD_SENDER_STREET2 : Option String
  SENDCLOUD_SENDER_POSTAL_CODE : Option String
  SENDCLOUD_SENDER_CITY : Option String
  SENDCLOUD_SENDER_COUNTRY_CODE : Option String
  SENDCLOUD_BRAND_ID : Option String
  SENDCLOUD_PUBLIC_KEY : Option String
  SENDCLOUD_SECRET_KEY : Option String
deriving DecidableEq

/-- The object `from_address`. -/
structure FromAddress where
  name : Option String
  email : Option String
  address_line_1 : Option String
  address_line_2 : String
  postal_code : Option String
  city : Option String
  country_code : Option String
deriving DecidableEq

/-- The object `toAddress`; `first_name` and `last_name` exist only for a pickup point, and
`state_province_code` only when one was derived. -/
structure ToAddress where
  name : String
  first_name : Option String
  last_name : Option String
  email : String
  address_line_1 : String
  address_line_2 : String
  postal_code : String
  city : Option String
  country_code : Option String
  phone_number : String
  state_province_code : Option String
deriving DecidableEq

/-- One element of `parcel_items`. -/
structure ParcelItem where
  description : String
  quantity : ℕ
  weightValue : ℚ
  weightUnit : String
  priceValue : ℚ
  priceCurrency : String
  origin_country : String
  hs_code : String
deriving DecidableEq

/-- One element of `parcels`. -/
structure Parcel where
  weightValue : ℚ
  weightUnit : String
  length : String
  width : String
  height : String
  unit : String
  parcel_items : Option (List ParcelItem)
deriving DecidableEq

/-- The object `customs_information`. -/
structure CustomsInformation where
  invoice_number : String
  export_type : String
  export_reason : String
deriving DecidableEq

/-- The object `ship_with`. -/
structure ShipWith where
  type : String
  shipping_option_code : String
deriving DecidableEq

/-- The object `payload` posted to the shipment API. -/
structure ShipmentPayload where
  external_reference : String
  telephone : String
  from_address : FromAddress
  to_address : ToAddress
  ship_with : ShipWith
  parcels : List Parcel
  brand_id : JSNum
  to_service_point : Option String
  customs_information : Option CustomsInformation
deriving DecidableEq

/-- The POST sent to the shipment API, with the credentials of its `Authorization` header. -/
structure Dispatch where
  endpoint : String
  authUser : Option String
  authPass : Option String
  payload : ShipmentPayload
deriving DecidableEq

/-- What one invocation does: the HTTP answer, the shipment request it posted (if it got
that far) and the subject of the notification mail it handed to the transport. -/
structure Result where
  statusCode : ℕ
  body : String
  dispatch : Option Dispatch
  mailSubject : Option String
deriving DecidableEq

/-- The list `NEED_STATE`. -/
def NEED_STATE : List String := ["US", "CA", "AU", "NZ"]

/-- The call `s.split(' ')` on the characters of `s`. -/
def splitSpace : List Char → List (List Char)
  | [] => [[]]
  | c :: cs =>
    if c = ' ' then [] :: splitSpace cs
    else
      match splitSpace cs with
      | [] => [[c]]
      | w :: ws => (c :: w) :: ws

/-- The call `parts.join(' ')`. -/
def joinSpace (parts : List (List Char)) : String :=
  String.mk (List.intercalate [' '] parts)

/-- The value of `shipping.country` after step 4: `country_code` stands in for a missing or
empty `country`. -/
def country (shipping : Shipping) : Option String :=
  if !truthy shipping.country && truthy shipping.country_code then shipping.country_code
  else shipping.country

/-- The value `code = shipping.shipping_option_code || shipping.shipping_method`. -/
def optionCode (shipping : Shipping) : Option String :=
  if truthy shipping.shipping_option_code then shipping.shipping_option_code
  else shipping.shipping_method

/-- The variable `stateProvinceCode`; `none` is `undefined`. -/
def stateProvinceCode (shipping : Shipping) : Option String :=
  match shipping.state_province_code, country shipping with
  | some raw, some c =>
    if raw ≠ "" ∧ NEED_STATE.contains c then
      some (if includesChar raw '-' then raw else c ++ "-" ++ raw)
    else none
  | _, _ => none

/-- The object `toAddress` of step 5. -/
def toAddress (shipping : Shipping) (formName formEmail phone : String) : ToAddress :=
  let parts := splitSpace formName.toList
  let firstName := String.mk (parts.headD [])
  let rest := joinSpace parts.tail
  { name := formName
    first_name := if truthy shipping.id then some firstName else none
    last_name := if truthy shipping.id then some (if rest ≠ "" then rest else firstName) else none
    email := formEmail
    address_line_1 := trim (orElse shipping.street "" ++ " " ++ orElse shipping.house_number "")
    address_line_2 := ""
    postal_code := stripWhiteSpace (orElse shipping.postal_code "")
    city := shipping.city
    country_code := country shipping
    phone_number := phone
    state_province_code :=
      if truthy (stateProvinceCode shipping) then stateProvinceCode shipping else none }

/-- The flag `isIntl`. -/
def isIntl (shipping : Shipping) : Bool :=
  decide (country shipping ≠ some "FR")

/-- The object `payload` after the two conditional additions of step 5. -/
def buildPayload (env : Env) (session : Session) (shipping : Shipping)
    (code formName formEmail phone : String) : ShipmentPayload :=
  let customs := isIntl shipping && !truthy shipping.id
  { external_reference := session.id
    telephone := phone
    from_address :=
      { name := env.SENDCLOUD_SENDER_NAME
        email := env.SENDCLOUD_SENDER_EMAIL
        address_line_1 := env.SENDCLOUD_SENDER_STREET
        address_line_2 := orElse env.SENDCLOUD_SENDER_STREET2 ""
        postal_code := env.SENDCLOUD_SENDER_POSTAL_CODE
        city := env.SENDCLOUD_SENDER_CITY
        country_code := env.SENDCLOUD_SENDER_COUNTRY_CODE }
    to_address := toAddress shipping formName formEmail phone
    ship_with := { type := "shipping_option_code", shipping_option_code := code }
    parcels :=
      [{ weightValue := 1 / 2
         weightUnit := "kg"
         length := "30"
         width := "20"
         height := "5"
         unit := "cm"
         parcel_items :=
           if customs then
             some [{ description := "Livre"
                     quantity := 1
                     weightValue := 1 / 2
                     weightUnit := "kg"
                     priceValue := 30
                     priceCurrency := "EUR"
                     origin_country := "FR"
                     hs_code := "490199" }]
           else none }]
    brand_id := parseInt10 env.SENDCLOUD_BRAND_ID
    to_service_point := if truthy shipping.id then shipping.id else none
    customs_information :=
      if customs then
        some { invoice_number := String.mk (session.id.toList.take 40)
               export_type := "private"
               export_reason := "commercial_goods" }
      else none }

/-- The constant `phone = shipping.phone || session.customer_details.phone || ''`; reading
`phone` off a missing `customer_details` throws a `TypeError`. -/
def resolvePhone (session : Session) (shipping : Shipping) : Except JSError String :=
  if truthy shipping.phone then .ok (orElse shipping.phone "")
  else
    match session.customer_details with
    | none => .error .runtime
    | some cd => .ok (orElse cd.phone "")

/-- The constant `endpoint` of step 6. -/
def endpoint (shipping : Shipping) : String :=
  if isIntl shipping && !truthy shipping.id then
    "https://panel.sendcloud.sc/api/v3/shipments/announce"
  else
    "https://panel.sendcloud.sc/api/v3/shipments"

/-- The exported `handler` of `webhook-stripe.js`.  The argument is `none` when
`constructEvent` throws (bad signature), and the body of that answer is shown without the
message of the signature error; an `error` result is an exception that leaves the handler
uncaught.  The answer of the shipment API and the outcome of the mail are only logged
by the source and change nothing in the result. -/
def handler (env : Env) (verified : Option StripeEvent) : Except JSError Result :=
  match verified with
  | none =>
    .ok { statusCode := 400, body := "Webhook Error", dispatch := none, mailSubject := none }
  | some stripeEvent =>
    if stripeEvent.type ≠ "checkout.session.completed" then
      .ok { statusCode := 200, body := "Ignored", dispatch := none, mailSubject := none }
    else
      let session := stripeEvent.session
      let invalidMetadata : Result :=
        { statusCode := 400, body := "Invalid metadata", dispatch := none, mailSubject := none }
      match session.metadata with
      | none => .ok invalidMetadata
      | some metadata =>
        match metadata.shipping with
        | .invalid => .ok invalidMetadata
        | parsedOrAbsent =>
          let shipping : Shipping :=
            match parsedOrAbsent with
            | .parsed s => s
            | _ =>
              { id := none, country := none, country_code := none, shipping_option_code := none,
                shipping_method := none, phone := none, postal_code := none,
                state_province_code := none, street := none, house_number := none, city := none }
          let formName := orElse metadata.name ""
          let formEmail := orElse metadata.email ""
          match optionCode shipping with
          | none =>
            .ok { statusCode := 400, body := "Missing shipping option code", dispatch := none,
                  mailSubject := none }
          | some code =>
            if code = "" then
              .ok { statusCode := 400, body := "Missing shipping option code", dispatch := none,
                    mailSubject := none }
            else
              match resolvePhone session shipping with
              | .error e => .error e
              | .ok phone =>
                .ok { statusCode := 200
                      body := "OK"
                      dispatch := some
                        { endpoint := endpoint shipping
                          authUser := env.SENDCLOUD_PUBLIC_KEY
                          authPass := env.SENDCLOUD_SECRET_KEY
                          payload := buildPayload env session shipping code formName formEmail phone }
                      mailSubject := some ("Nouvelle commande " ++ session.id) }

end WebhookStripe

/-! ## Properties stated by the specification -/

/-- A POST event whose body parses to an object with the given `shipping`. -/
def postEvent (shipping : Shipping) : Event :=
  { httpMethod := "POST", payload := some { shipping := some shipping } }

/-- Sorted strictly ascending by parsed price. -/
def StrictlyAscending (l : List ShippingOption) : Prop :=
  l.Pairwise (fun a b => (parsedPrice a).lt (parsedPrice b))

/-- Sorted ascending by parsed price, equal prices allowed. -/
def Ascending (l : List ShippingOption) : Prop :=
  l.Pairwise (fun a b => (parsedPrice a).le (parsedPrice b))

/-- No two entries share a carrier code. -/
def DistinctCarriers (l : List ShippingOption) : Prop :=
  l.Pairwise (fun a b => a.carrier.code ≠ b.carrier.code)

/-- The options of an upstream answer that the home-delivery branch keeps before sorting. -/
def eligibleHome (o : ShippingOption) : Bool :=
  GetShippingOptions.baseFilter o && !o.requirements.is_service_point_required

/-- The list `json.data` of an upstream outcome, empty when there is none. -/
def upstreamData : FetchOutcome → List ShippingOption
  | .json _ (.data l) => l
  | _ => []

/-- A shipping option with one quote of the given price text. -/
def mkOption (code carrier : String) (servicePoint : Bool) (value : String) : ShippingOption :=
  { code := code
    carrier := { code := carrier }
    requirements := { is_service_point_required := servicePoint }
    quotes := some [{ price := some { total := some { value := some value } } }] }

/-- An environment with the sender set. -/
def sampleEnv : RateEnv :=
  { SENDCLOUD_PUBLIC_KEY := some "pk"
    SENDCLOUD_SECRET_KEY := some "sk"
    SENDCLOUD_SENDER_COUNTRY := some "FR"
    SENDCLOUD_SENDER_POSTAL := some "75001" }

/-- A home-delivery destination. -/
def homeShipping : Shipping :=
  { id := none, carrier_code := none, country := some "FR", postal_code := some "75001" }

/-- A pickup-point destination. -/
def pickupShipping : Shipping :=
  { id := some "10875", carrier_code := some "mondial_relay", country := some "FR",
    postal_code := some "75001" }

/-- Two carriers quoting the same price. -/
def tieData : List ShippingOption :=
  [mkOption "colissimo:home" "colissimo" false "5.00",
   mkOption "chronopost:home" "chronopost" false "5.00"]

/-- Three carriers, the second with a price text that is not a number. -/
def nanData : List ShippingOption :=
  [mkOption "colissimo:home" "colissimo" false "5.00",
   mkOption "chronopost:home" "chronopost" false "n/a",
   mkOption "dpd:home" "dpd" false "3.00"]

/-- Four carriers and a second, dearer product of the cheapest one. -/
def fourCarriers : List ShippingOption :=
  [mkOption "dpd:home" "dpd" false "7.10",
   mkOption "colissimo:home/signature" "colissimo" false "6.50",
   mkOption "colissimo:home" "colissimo" false "4.95",
   mkOption "chronopost:home" "chronopost" false "9.00",
   mkOption "mondial_relay:pickup" "mondial_relay" true "3.90",
   mkOption "ups:standard" "ups" false "12.00"]

/-- The option `o` is the first element of `data` that satisfies `p`. -/
def IsFirstWith (p : ShippingOption → Bool) (data : List ShippingOption)
    (o : ShippingOption) : Prop :=
  ∃ pre post, data = pre ++ o :: post ∧ p o = true ∧ ∀ x ∈ pre, p x = false

/-- The selection order in the words of the specification: in pickup-point mode the first
option requiring a service point if one exists; otherwise the first option whose code starts
with `colissimo:home` if one exists; otherwise the first option of the list. -/
def SelectedBySpec (shipping : Shipping) (data : List ShippingOption)
    (o : ShippingOption) : Prop :=
  let pickupFound := truthy shipping.id = true ∧
    ∃ x ∈ data, x.requirements.is_service_point_required = true
  let homeFound := ∃ x ∈ data, startsWith x.code "colissimo:home" = true
  (pickupFound ∧ IsFirstWith (fun x => x.requirements.is_service_point_required) data o) ∨
  (¬ pickupFound ∧ homeFound ∧
    IsFirstWith (fun x => startsWith x.code "colissimo:home") data o) ∨
  (¬ pickupFound ∧ ¬ homeFound ∧ data.head? = some o)

/-- Rounding to the nearest integer, a tie going away from zero. -/
def roundHalfAwayFromZero (x : ℚ) : ℤ :=
  if 0 ≤ x then ⌊x + 1 / 2⌋ else -⌊-x + 1 / 2⌋

/-- Two home products, the default carrier's one second, and no pickup-point product. -/
def homeOnlyData : List ShippingOption :=
  [mkOption "chronopost:home" "chronopost" false "9.00",
   mkOption "colissimo:home" "colissimo" false "5.00"]

/-- A single option priced with a third decimal, `1.005`. -/
def thousandthsData : List ShippingOption :=
  [mkOption "colissimo:home" "colissimo" false "1.005"]

/-- A confirmed order with a rate code: a `checkout.session.completed` event whose metadata
parse to `shipping` and give the non-empty option code `code`. -/
def ConfirmedOrder (stripeEvent : WebhookStripe.StripeEvent) (metadata : WebhookStripe.Metadata)
    (shipping : WebhookStripe.Shipping) (code : String) : Prop :=
  stripeEvent.type = "checkout.session.completed" ∧
  stripeEvent.session.metadata = some metadata ∧
  metadata.shipping = .parsed shipping ∧
  WebhookStripe.optionCode shipping = some code ∧ code ≠ ""

/-- The payload carries a customs block: its parcel has `parcel_items` and the payload has
`customs_information`. -/
def CustomsBlock (payload : WebhookStripe.ShipmentPayload) : Prop :=
  (∃ parcel ∈ payload.parcels, parcel.parcel_items ≠ none) ∧ payload.customs_information ≠ none

/-- The payload carries no part of a customs block. -/
def NoCustoms (payload : WebhookStripe.ShipmentPayload) : Prop :=
  (∀ parcel ∈ payload.parcels, parcel.parcel_items = none) ∧ payload.customs_information = none

/-- An environment with the sender identity set. -/
def webhookEnv : WebhookStripe.Env :=
  { SENDCLOUD_SENDER_NAME := some "Librairie"
    SENDCLOUD_SENDER_EMAIL := some "contact@example.org"
    SENDCLOUD_SENDER_STREET := some "1 rue de la Paix"
    SENDCLOUD_SENDER_STREET2 := none
    SENDCLOUD_SENDER_POSTAL_CODE := some "75002"
    SENDCLOUD_SENDER_CITY := some "Paris"
    SENDCLOUD_SENDER_COUNTRY_CODE := some "FR"
    SENDCLOUD_BRAND_ID := some "42"
    SENDCLOUD_PUBLIC_KEY := some "pk"
    SENDCLOUD_SECRET_KEY := some "sk" }

/-- The metadata of a session opened for `shipping`. -/
def sampleMetadata (shipping : WebhookStripe.Shipping) : WebhookStripe.Metadata :=
  { shipping := .parsed shipping
    name := some "Jeanne Martin"
    email := some "jeanne@example.org"
    dedicace := none }

/-- A completed-checkout event for `shipping`. -/
def completedEvent (shipping : WebhookStripe.Shipping) : WebhookStripe.StripeEvent :=
  { type := "checkout.session.completed"
    session :=
      { id := "cs_test_a1b2c3"
        metadata := some (sampleMetadata shipping)
        customer_details := some { phone := some "+33600000000" } } }

/-- A home-delivery order to Germany. -/
def germanHome : WebhookStripe.Shipping :=
  { id := none, country := some "DE", country_code := none,
    shipping_option_code := some "dhl:home", shipping_method := none, phone := none,
    postal_code := some "10115", state_province_code := none, street := some "Invalidenstr.",
    house_number := some "5", city := some "Berlin" }

/-- A pickup-point order to Germany. -/
def germanPickup : WebhookStripe.Shipping :=
  { id := some "10875", country := some "DE", country_code := none,
    shipping_option_code := some "dhl:pickup", shipping_method := none, phone := none,
    postal_code := some "10115", state_province_code := none, street := none,
    house_number := none, city := some "Berlin" }

/-- A home-delivery order to the United States with the raw region `CA`. -/
def americanHome : WebhookStripe.Shipping :=
  { id := none, country := some "US", country_code := none,
    shipping_option_code := some "ups:standard", shipping_method := none, phone := none,
    postal_code := some "94 103", state_province_code := some "CA", street := some "Market St",
    house_number := some "1", city := some "San Francisco" }

/-- A home-delivery order with a rate code and a street, but no city, postal code or
country. -/
def incompleteHome : WebhookStripe.Shipping :=
  { id := none, country := none, country_code := none,
    shipping_option_code := some "colissimo:home", shipping_method := none, phone := none,
    postal_code := none, state_province_code := none, street := some "rue Monge",
    house_number := some "12", city := none }

/-- A home-delivery order to France without a city. -/
def frenchHomeNoCity : WebhookStripe.Shipping :=
  { id := none, country := some "FR", country_code := none,
    shipping_option_code := some "colissimo:home", shipping_method := none, phone := none,
    postal_code := some "75005", state_province_code := none, street := some "rue Monge",
    house_number := some "12", city := none }

/-- The number of distinct carriers among the options of `data` that the home-delivery
branch keeps. -/
def distinctEligibleCarriers (data : List ShippingOption) : ℕ :=
  ((data.filter eligibleHome).map (fun o => o.carrier.code)).dedup.length

/-- The first quote of the option has a price value, the text `v`. -/
def HasFirstQuotePrice (o : ShippingOption) (v : String) : Prop :=
  ∃ q rest p t, o.quotes = some (q :: rest) ∧ q.price = some p ∧ p.total = some t ∧
    t.value = some v

/-- An eligible quote in the words of the specification: it has a non-null first-quote price,
its code does not start with `sendcloud:letter`, and it does not require a service point. -/
def EligibleQuote (o : ShippingOption) : Prop :=
  (∃ v, HasFirstQuotePrice o v) ∧ ¬ ("sendcloud:letter".toList <+: o.code.toList) ∧
    o.requirements.is_service_point_required = false

/-- The price of the first quote of the option parses to `x`. -/
def QuotedAt (o : ShippingOption) (x : JSNum) : Prop :=
  ∃ v, HasFirstQuotePrice o v ∧ parseFloat v = x

/-- The number of distinct carriers among the eligible quotes of `data` is `k`. -/
def EligibleCarrierCount (data : List ShippingOption) (k : ℕ) : Prop :=
  ∃ carriers : Finset String,
    (∀ c, c ∈ carriers ↔ ∃ o ∈ data, EligibleQuote o ∧ o.carrier.code = c) ∧
    carriers.card = k

/-! ## Numbers and sorting -/

theorem JSNum.isPos_sub (a b : JSNum) : (a.sub b).isPos = true ↔ b.lt a := by
  cases a <;> cases b <;> simp [JSNum.sub, JSNum.isPos, JSNum.lt]

theorem JSNum.le_of_lt {a b : JSNum} (h : a.lt b) : a.le b := by
  cases a <;> cases b <;> simp_all [JSNum.le, JSNum.lt]
  exact h.le

theorem JSNum.le_of_not_lt {a b : JSNum} (ha : a.isNaN = false) (hb : b.isNaN = false)
    (h : ¬ b.lt a) : a.le b := by
  cases a <;> cases b <;> simp_all [JSNum.le, JSNum.lt, JSNum.isNaN]

theorem JSNum.le_trans {a b c : JSNum} (hab : a.le b) (hbc : b.le c) : a.le c := by
  cases a <;> cases b <;> cases c <;> simp_all [JSNum.le]
  exact hab.trans hbc

theorem sortInsert_perm {α : Type} (cmp : α → α → JSNum) (x : α) (l : List α) :
    (sortInsert cmp x l).Perm (x :: l) := by
  induction l with
  | nil => simp [sortInsert]
  | cons y ys ih =>
    unfold sortInsert
    split
    · exact ((List.Perm.cons y ih).trans (List.Perm.swap x y ys))
    · exact List.Perm.refl _

theorem jsSort_perm {α : Type} (cmp : α → α → JSNum) (l : List α) : (jsSort cmp l).Perm l := by
  induction l with
  | nil => simp [jsSort]
  | cons x xs ih =>
    unfold jsSort
    exact (sortInsert_perm cmp x _).trans (List.Perm.cons x ih)

theorem mem_jsSort {α : Type} (cmp : α → α → JSNum) (l : List α) (a : α) :
    a ∈ jsSort cmp l ↔ a ∈ l :=
  (jsSort_perm cmp l).mem_iff

theorem length_jsSort {α : Type} (cmp : α → α → JSNum) (l : List α) :
    (jsSort cmp l).length = l.length :=
  (jsSort_perm cmp l).length_eq

theorem sortInsert_ascending (x : ShippingOption) (l : List ShippingOption)
    (hx : (parsedPrice x).isNaN = false) (hl : ∀ o ∈ l, (parsedPrice o).isNaN = false)
    (hs : Ascending l) : Ascending (sortInsert byPrice x l) := by
  induction l with
  | nil => simp [sortInsert, Ascending]
  | cons y ys ih =>
    have hy : (parsedPrice y).isNaN = false := hl y (List.mem_cons_self _ _)
    have hys : ∀ o ∈ ys, (parsedPrice o).isNaN = false :=
      fun o ho => hl o (List.mem_cons_of_mem _ ho)
    have hs1 : ∀ z ∈ ys, (parsedPrice y).le (parsedPrice z) := (List.pairwise_cons.1 hs).1
    have hs2 : Ascending ys := (List.pairwise_cons.1 hs).2
    unfold sortInsert
    by_cases hc : (byPrice x y).isPos = true
    · rw [if_pos hc]
      have hyx : (parsedPrice y).le (parsedPrice x) :=
        JSNum.le_of_lt ((JSNum.isPos_sub _ _).1 hc)
      refine List.pairwise_cons.2 ⟨?_, ih hys hs2⟩
      intro z hz
      rcases List.mem_cons.1 ((sortInsert_perm byPrice x ys).mem_iff.1 hz) with h | h
      · subst h; exact hyx
      · exact hs1 z h
    · rw [if_neg hc]
      have hxy : (parsedPrice x).le (parsedPrice y) :=
        JSNum.le_of_not_lt hx hy (fun h => hc ((JSNum.isPos_sub _ _).2 h))
      refine List.pairwise_cons.2 ⟨?_, hs⟩
      intro z hz
      rcases List.mem_cons.1 hz with h | h
      · subst h; exact hxy
      · exact JSNum.le_trans hxy (hs1 z h)

theorem jsSort_ascending (l : List ShippingOption)
    (hl : ∀ o ∈ l, (parsedPrice o).isNaN = false) : Ascending (jsSort byPrice l) := by
  induction l with
  | nil => simp [jsSort, Ascending]
  | cons x xs ih =>
    unfold jsSort
    refine sortInsert_ascending x _ (hl x (List.mem_cons_self _ _)) ?_
      (ih (fun o ho => hl o (List.mem_cons_of_mem _ ho)))
    intro o ho
    exact hl o (List.mem_cons_of_mem _ ((mem_jsSort byPrice xs o).1 ho))

/-! ## Rounding to a double -/

theorem JSNum.log2Fuel_spec : ∀ (fuel n : ℕ), n ≤ fuel → 0 < n →
    2 ^ JSNum.log2Fuel fuel n ≤ n ∧ n < 2 ^ (JSNum.log2Fuel fuel n + 1) := by
  intro fuel
  induction fuel with
  | zero => intro n h1 h2; omega
  | succ k ih =>
    intro n hle hpos
    unfold JSNum.log2Fuel
    by_cases h2 : n < 2
    · rw [if_pos h2]
      have : n = 1 := by omega
      subst this
      simp
    · rw [if_neg h2]
      have hhalf : n / 2 ≤ k := by omega
      have hhalfpos : 0 < n / 2 := by omega
      obtain ⟨h3, h4⟩ := ih (n / 2) hhalf hhalfpos
      rw [pow_succ, pow_succ, pow_succ] at *
      constructor <;> omega

theorem abs_eq_natAbs_div_den (x : ℚ) : |x| = (x.num.natAbs : ℚ) / (x.den : ℚ) := by
  have hden : (0 : ℚ) < (x.den : ℚ) := by exact_mod_cast x.den_pos
  have hnum : |(x.num : ℚ)| = (x.num.natAbs : ℚ) := by
    rw [Nat.cast_natAbs, Int.cast_abs]
  conv_lhs => rw [← Rat.num_div_den x]
  rw [abs_div, abs_of_pos hden, hnum]

theorem binade_spec (x : ℚ) (hx : x ≠ 0) :
    (2 : ℚ) ^ (JSNum.binade x) ≤ |x| ∧ |x| < (2 : ℚ) ^ (JSNum.binade x + 1) := by
  have hnum : 0 < x.num.natAbs := Int.natAbs_pos.2 (Rat.num_ne_zero.2 hx)
  have hdenN : 0 < x.den := x.den_pos
  obtain ⟨ha1, ha2⟩ := JSNum.log2Fuel_spec x.num.natAbs x.num.natAbs le_rfl hnum
  obtain ⟨hb1, hb2⟩ := JSNum.log2Fuel_spec x.den x.den le_rfl hdenN
  have hden : (0 : ℚ) < (x.den : ℚ) := by exact_mod_cast hdenN
  have ha1' : (2 : ℚ) ^ (JSNum.log2Fuel x.num.natAbs x.num.natAbs) ≤ (x.num.natAbs : ℚ) := by
    exact_mod_cast ha1
  have ha2' : (x.num.natAbs : ℚ) < (2 : ℚ) ^ (JSNum.log2Fuel x.num.natAbs x.num.natAbs + 1) := by
    exact_mod_cast ha2
  have hb1' : (2 : ℚ) ^ (JSNum.log2Fuel x.den x.den) ≤ (x.den : ℚ) := by
    exact_mod_cast hb1
  have hb2' : (x.den : ℚ) < (2 : ℚ) ^ (JSNum.log2Fuel x.den x.den + 1) := by
    exact_mod_cast hb2
  have habs := abs_eq_natAbs_div_den x
  have h2 : (2 : ℚ) ≠ 0 := two_ne_zero
  have hpa : (0 : ℚ) < (2 : ℚ) ^ (JSNum.log2Fuel x.num.natAbs x.num.natAbs) := by positivity
  have hpb : (0 : ℚ) < (2 : ℚ) ^ (JSNum.log2Fuel x.den x.den) := by positivity
  have he0 : (2 : ℚ) ^ ((JSNum.log2Fuel x.num.natAbs x.num.natAbs : ℤ) -
      (JSNum.log2Fuel x.den x.den : ℤ)) =
      (2 : ℚ) ^ (JSNum.log2Fuel x.num.natAbs x.num.natAbs) /
        (2 : ℚ) ^ (JSNum.log2Fuel x.den x.den) := by
    rw [zpow_sub₀ h2, zpow_natCast, zpow_natCast]
  unfold JSNum.binade
  simp only
  split
  · rename_i hle
    refine ⟨hle, ?_⟩
    rw [zpow_add_one₀ h2, he0, habs, div_lt_iff₀ hden]
    calc (x.num.natAbs : ℚ) < (2 : ℚ) ^ (JSNum.log2Fuel x.num.natAbs x.num.natAbs + 1) := ha2'
      _ = (2 : ℚ) ^ (JSNum.log2Fuel x.num.natAbs x.num.natAbs) /
            (2 : ℚ) ^ (JSNum.log2Fuel x.den x.den) * 2 *
            (2 : ℚ) ^ (JSNum.log2Fuel x.den x.den) := by
          field_simp; ring
      _ ≤ (2 : ℚ) ^ (JSNum.log2Fuel x.num.natAbs x.num.natAbs) /
            (2 : ℚ) ^ (JSNum.log2Fuel x.den x.den) * 2 * (x.den : ℚ) := by
          apply mul_le_mul_of_nonneg_left hb1'
          positivity
  · rename_i hnle
    constructor
    · rw [zpow_sub_one₀ h2, he0, habs, le_div_iff₀ hden]
      have hstep : (2 : ℚ) ^ (JSNum.log2Fuel x.num.natAbs x.num.natAbs) /
            (2 : ℚ) ^ (JSNum.log2Fuel x.den x.den) * 2⁻¹ * (x.den : ℚ) ≤
          (2 : ℚ) ^ (JSNum.log2Fuel x.num.natAbs x.num.natAbs) /
            (2 : ℚ) ^ (JSNum.log2Fuel x.den x.den) * 2⁻¹ *
            (2 : ℚ) ^ (JSNum.log2Fuel x.den x.den + 1) := by
        apply mul_le_mul_of_nonneg_left hb2'.le
        positivity
      have heq : (2 : ℚ) ^ (JSNum.log2Fuel x.num.natAbs x.num.natAbs) /
            (2 : ℚ) ^ (JSNum.log2Fuel x.den x.den) * 2⁻¹ *
            (2 : ℚ) ^ (JSNum.log2Fuel x.den x.den + 1) =
          (2 : ℚ) ^ (JSNum.log2Fuel x.num.natAbs x.num.natAbs) := by
        rw [pow_succ]; field_simp
      linarith
    · have : (JSNum.log2Fuel x.num.natAbs x.num.natAbs : ℤ) - (JSNum.log2Fuel x.den x.den : ℤ)
          - 1 + 1 = (JSNum.log2Fuel x.num.natAbs x.num.natAbs : ℤ) -
            (JSNum.log2Fuel x.den x.den : ℤ) := by ring
      rw [this]
      exact lt_of_not_le hnle

theorem roundHalfEven_sub_le (m : ℚ) : |(JSNum.roundHalfEven m : ℚ) - m| ≤ 1 / 2 := by
  have h1 := Int.floor_le m
  have h2 := Int.lt_floor_add_one m
  unfold JSNum.roundHalfEven
  rw [abs_le]
  split
  · constructor <;> linarith
  · split
    · push_cast
      constructor <;> linarith
    · split
      · constructor <;> linarith
      · push_cast
        constructor <;> linarith

theorem JSNum.toDouble_error (x : ℚ) (hlo : 1 / (2 : ℚ) ^ (1022 : ℕ) ≤ |x|)
    (hhi : |x| ≤ (2 : ℚ) ^ (1000 : ℕ)) :
    ∃ y, JSNum.toDouble x = JSNum.fin y ∧ |y - x| ≤ |x| / 2 ^ (53 : ℕ) := by
  have h2 : (2 : ℚ) ≠ 0 := two_ne_zero
  have hxpos : 0 < |x| := lt_of_lt_of_le (by positivity) hlo
  have hx : x ≠ 0 := abs_pos.1 hxpos
  obtain ⟨hb1, hb2⟩ := binade_spec x hx
  have hlo' : (2 : ℚ) ^ (-1022 : ℤ) ≤ |x| := by
    have : (2 : ℚ) ^ (-1022 : ℤ) = 1 / (2 : ℚ) ^ (1022 : ℕ) := by
      rw [zpow_neg, zpow_ofNat, one_div]
    rw [this]
    exact hlo
  have he : -1022 ≤ JSNum.binade x := by
    have hlt : (2 : ℚ) ^ (-1022 : ℤ) < (2 : ℚ) ^ (JSNum.binade x + 1) :=
      lt_of_le_of_lt hlo' hb2
    have := (zpow_lt_zpow_iff_right₀ (one_lt_two : (1 : ℚ) < 2)).1 hlt
    omega
  have hmax : max (JSNum.binade x) (-1022) = JSNum.binade x := max_eq_left he
  have hQpos : (0 : ℚ) < (2 : ℚ) ^ (JSNum.binade x - 52) := zpow_pos (by norm_num) _
  have hQ : (2 : ℚ) ^ (JSNum.binade x - 52) = (2 : ℚ) ^ (JSNum.binade x) / 2 ^ (52 : ℕ) := by
    rw [zpow_sub₀ h2, zpow_ofNat]
  have hr := roundHalfEven_sub_le (x / (2 : ℚ) ^ (JSNum.binade x - 52))
  have herr : |(JSNum.roundHalfEven (x / (2 : ℚ) ^ (JSNum.binade x - 52)) : ℚ) *
      (2 : ℚ) ^ (JSNum.binade x - 52) - x| ≤ |x| / 2 ^ (53 : ℕ) := by
    have hfac : (JSNum.roundHalfEven (x / (2 : ℚ) ^ (JSNum.binade x - 52)) : ℚ) *
        (2 : ℚ) ^ (JSNum.binade x - 52) - x =
        ((JSNum.roundHalfEven (x / (2 : ℚ) ^ (JSNum.binade x - 52)) : ℚ) -
          x / (2 : ℚ) ^ (JSNum.binade x - 52)) * (2 : ℚ) ^ (JSNum.binade x - 52) := by
      field_simp
    rw [hfac, abs_mul, abs_of_pos hQpos]
    calc |(JSNum.roundHalfEven (x / (2 : ℚ) ^ (JSNum.binade x - 52)) : ℚ) -
          x / (2 : ℚ) ^ (JSNum.binade x - 52)| * (2 : ℚ) ^ (JSNum.binade x - 52)
        ≤ 1 / 2 * (2 : ℚ) ^ (JSNum.binade x - 52) :=
          mul_le_mul_of_nonneg_right hr hQpos.le
      _ = (2 : ℚ) ^ (JSNum.binade x) / 2 ^ (53 : ℕ) := by
          rw [hQ]; ring
      _ ≤ |x| / 2 ^ (53 : ℕ) := by
          apply div_le_div_of_nonneg_right hb1
          positivity
  refine ⟨(JSNum.roundHalfEven (x / (2 : ℚ) ^ (JSNum.binade x - 52)) : ℚ) *
      (2 : ℚ) ^ (JSNum.binade x - 52), ?_, herr⟩
  have hsmall : ¬ (2 : ℚ) ^ (1024 : ℕ) ≤
      |(JSNum.roundHalfEven (x / (2 : ℚ) ^ (JSNum.binade x - 52)) : ℚ) *
        (2 : ℚ) ^ (JSNum.binade x - 52)| := by
    intro hbig
    have htri : |(JSNum.roundHalfEven (x / (2 : ℚ) ^ (JSNum.binade x - 52)) : ℚ) *
        (2 : ℚ) ^ (JSNum.binade x - 52)| ≤
        |(JSNum.roundHalfEven (x / (2 : ℚ) ^ (JSNum.binade x - 52)) : ℚ) *
          (2 : ℚ) ^ (JSNum.binade x - 52) - x| + |x| := by
      have := abs_add ((JSNum.roundHalfEven (x / (2 : ℚ) ^ (JSNum.binade x - 52)) : ℚ) *
          (2 : ℚ) ^ (JSNum.binade x - 52) - x) x
      simpa using this
    have hdiv : |x| / 2 ^ (53 : ℕ) ≤ |x| := div_le_self hxpos.le (by norm_num)
    have hpow : (2 : ℚ) * 2 ^ (1000 : ℕ) < 2 ^ (1024 : ℕ) := by norm_num
    linarith
  unfold JSNum.toDouble
  rw [if_neg hx]
  simp only [hmax]
  rw [if_neg hsmall]

theorem JSNum.round_cents_of_clear (p : ℚ) (n : ℤ) (hlo : 1 / (2 : ℚ) ^ (1000 : ℕ) ≤ p)
    (hhi : p ≤ (2 : ℚ) ^ (990 : ℕ))
    (h1 : (n : ℚ) - 1 / 2 + p * 100 / 2 ^ (51 : ℕ) ≤ p * 100)
    (h2 : p * 100 + p * 100 / 2 ^ (51 : ℕ) < (n : ℚ) + 1 / 2) :
    JSNum.round ((JSNum.toDouble p).mul (JSNum.fin 100)) = JSNum.fin n := by
  have hp : 0 < p := lt_of_lt_of_le (by positivity) hlo
  have habsp : |p| = p := abs_of_pos hp
  obtain ⟨d, hd, hderr⟩ := JSNum.toDouble_error p
    (by rw [habsp]; exact (show 1 / (2 : ℚ) ^ (1022 : ℕ) ≤ 1 / 2 ^ (1000 : ℕ) by norm_num).trans hlo)
    (by rw [habsp]; exact hhi.trans (by norm_num))
  rw [habsp, abs_le] at hderr
  have hu : p / 2 ^ (53 : ℕ) ≤ p / 2 := by
    apply div_le_div_of_nonneg_left hp.le (by norm_num) (by norm_num)
  have hdpos : 0 < d := by linarith [hderr.1]
  have hd100 : |d * 100| = d * 100 := abs_of_pos (mul_pos hdpos (by norm_num))
  have h990 : (2 : ℚ) ^ (990 : ℕ) * 200 ≤ 2 ^ (1000 : ℕ) := by norm_num
  have h1022 : 1 / (2 : ℚ) ^ (1022 : ℕ) ≤ 1 / 2 ^ (1000 : ℕ) := by norm_num
  obtain ⟨y, hy, hyerr⟩ := JSNum.toDouble_error (d * 100)
    (by rw [hd100]; linarith [hderr.1])
    (by rw [hd100]; linarith [hderr.2])
  rw [hd100, abs_le] at hyerr
  have hdu : d ≤ p + p / 2 ^ (53 : ℕ) := by linarith [hderr.2]
  have hsq : p / 2 ^ (53 : ℕ) * 100 / 2 ^ (53 : ℕ) ≤ p * 100 / 2 ^ (53 : ℕ) := by
    apply div_le_div_of_nonneg_right _ (by positivity)
    have : p / 2 ^ (53 : ℕ) ≤ p := div_le_self hp.le (by norm_num)
    linarith
  have hdy : d * 100 / 2 ^ (53 : ℕ) ≤ 2 * (p * 100 / 2 ^ (53 : ℕ)) := by
    have : d * 100 / 2 ^ (53 : ℕ) ≤ (p + p / 2 ^ (53 : ℕ)) * 100 / 2 ^ (53 : ℕ) := by
      apply div_le_div_of_nonneg_right _ (by positivity)
      linarith
    have hexp : (p + p / 2 ^ (53 : ℕ)) * 100 / 2 ^ (53 : ℕ) =
        p * 100 / 2 ^ (53 : ℕ) + p / 2 ^ (53 : ℕ) * 100 / 2 ^ (53 : ℕ) := by ring
    linarith
  have h51 : p * 100 / 2 ^ (51 : ℕ) = 4 * (p * 100 / 2 ^ (53 : ℕ)) := by
    have : (2 : ℚ) ^ (53 : ℕ) = 4 * 2 ^ (51 : ℕ) := by norm_num
    rw [this]; field_simp; ring
  have hp53 : 0 ≤ p * 100 / 2 ^ (53 : ℕ) := by positivity
  have hylo : (n : ℚ) ≤ y + 1 / 2 := by linarith [hyerr.1, hderr.1]
  have hyhi : y + 1 / 2 < (n : ℚ) + 1 := by linarith [hyerr.2, hderr.2]
  have hfloor : ⌊y + 1 / 2⌋ = n := Int.floor_eq_iff.2 ⟨hylo, hyhi⟩
  clear h990 h1022 hhi hlo
  simp only [hd, JSNum.mul, hy, JSNum.round, hfloor]

/-! ## The listing function -/

theorem GetShippingOptions.distinctLoop_spec (l : List ShippingOption) :
    ∀ (d : List ShippingOption) (seen : List String), d.length < 3 → DistinctCarriers d →
      (∀ c, c ∈ seen ↔ ∃ o ∈ d, o.carrier.code = c) →
      ∃ t, t.Sublist l ∧ GetShippingOptions.distinctLoop l d seen = d ++ t ∧
        (d ++ t).length ≤ 3 ∧ DistinctCarriers (d ++ t) := by
  induction l with
  | nil =>
    intro d seen hlen hd _
    exact ⟨[], List.Sublist.refl _, by simp [GetShippingOptions.distinctLoop],
      by simpa using hlen.le, by simpa using hd⟩
  | cons o rest ih =>
    intro d seen hlen hd hseen
    by_cases hc : seen.contains o.carrier.code = true
    · obtain ⟨t, ht, heq, hlen', hd'⟩ := ih d seen hlen hd hseen
      refine ⟨t, ht.cons o, ?_, hlen', hd'⟩
      have hne : ¬ d.length = 3 := by omega
      simp only [GetShippingOptions.distinctLoop, hc, if_true, if_neg hne]
      exact heq
    · have hnot : ∀ a ∈ d, a.carrier.code ≠ o.carrier.code := by
        intro a ha hEq
        apply hc
        have hmem : o.carrier.code ∈ seen := (hseen _).2 ⟨a, ha, hEq⟩
        simpa using hmem
      have hc' : seen.contains o.carrier.code = false := by simpa using hc
      have hd1 : DistinctCarriers (d ++ [o]) := by
        unfold DistinctCarriers at hd ⊢
        rw [List.pairwise_append]
        refine ⟨hd, List.pairwise_singleton _ _, ?_⟩
        intro a ha b hb
        rw [List.mem_singleton] at hb
        subst hb
        exact hnot a ha
      by_cases h3 : (d ++ [o]).length = 3
      · refine ⟨[o], ?_, ?_, by omega, hd1⟩
        · exact (List.Sublist.refl [o]).trans (List.singleton_sublist.2 (List.mem_cons_self _ _))
        · simp only [GetShippingOptions.distinctLoop, hc', Bool.false_eq_true, if_false, if_pos h3]
      · have hlen1 : (d ++ [o]).length < 3 := by
          have : (d ++ [o]).length = d.length + 1 := by simp
          omega
        have hseen1 : ∀ c, c ∈ o.carrier.code :: seen ↔ ∃ a ∈ d ++ [o], a.carrier.code = c := by
          intro c
          constructor
          · intro h
            rcases List.mem_cons.1 h with h | h
            · exact ⟨o, by simp, h.symm⟩
            · obtain ⟨a, ha, hac⟩ := (hseen c).1 h
              exact ⟨a, List.mem_append_left _ ha, hac⟩
          · rintro ⟨a, ha, hac⟩
            rcases List.mem_append.1 ha with h | h
            · exact List.mem_cons_of_mem _ ((hseen c).2 ⟨a, h, hac⟩)
            · rw [List.mem_singleton] at h
              subst h
              rw [← hac]
              exact List.mem_cons_self _ _
        obtain ⟨t, ht, heq, hlen', hd'⟩ := ih (d ++ [o]) (o.carrier.code :: seen) hlen1 hd1 hseen1
        refine ⟨o :: t, ht.cons₂ o, ?_, ?_, ?_⟩
        · simp only [GetShippingOptions.distinctLoop, hc', Bool.false_eq_true, if_false, if_neg h3]
          simpa using heq
        · simpa using hlen'
        · simpa using hd'

theorem GetShippingOptions.options_handler_post (env : RateEnv) (fetch : RateRequest → FetchOutcome)
    (event : Event) (shipping : Shipping) (hMethod : event.httpMethod = "POST")
    (hPayload : event.payload = some { shipping := some shipping }) :
    GetShippingOptions.handler env fetch event =
      match GetShippingOptions.fetchOptions shipping
        (fetch (GetShippingOptions.bodyV3 env shipping)) with
      | .ok r => r
      | .error e => { statusCode := 500, body := .errorMessage e } := by
  unfold GetShippingOptions.handler
  rw [hMethod, hPayload]
  simp

theorem GetShippingOptions.fetchOptions_cases (shipping : Shipping) (outcome : FetchOutcome) :
    GetShippingOptions.fetchOptions shipping outcome = .error .runtime ∨
    (upstreamData outcome = [] ∧
      GetShippingOptions.fetchOptions shipping outcome =
        .ok { statusCode := 200, body := .options [] }) ∨
    (upstreamData outcome ≠ [] ∧
      GetShippingOptions.fetchOptions shipping outcome =
        .ok { statusCode := 200
              body := .options (GetShippingOptions.selectOptions shipping
                (upstreamData outcome)) }) := by
  cases outcome with
  | networkError => left; rfl
  | invalidJson s => left; rfl
  | json s body =>
    cases body with
    | null => left; rfl
    | noData => right; left; exact ⟨rfl, rfl⟩
    | data l =>
      cases l with
      | nil => right; left; exact ⟨rfl, rfl⟩
      | cons a t =>
        right; right
        refine ⟨by simp [upstreamData], ?_⟩
        simp [GetShippingOptions.fetchOptions, upstreamData]

theorem GetShippingOptions.selectOptions_home (shipping : Shipping) (data : List ShippingOption)
    (hHome : truthy shipping.id = false) :
    (GetShippingOptions.selectOptions shipping data).length ≤ 3 ∧
    DistinctCarriers (GetShippingOptions.selectOptions shipping data) ∧
    ((∀ o ∈ data, eligibleHome o = true → (parsedPrice o).isNaN = false) →
      Ascending (GetShippingOptions.selectOptions shipping data)) := by
  obtain ⟨t, ht, heq, hlen, hd⟩ :=
    GetShippingOptions.distinctLoop_spec
      (jsSort byPrice ((data.filter GetShippingOptions.baseFilter).filter
        (fun o => !o.requirements.is_service_point_required)))
      [] [] (by simp) (by simp [DistinctCarriers]) (by simp)
  have hsel : GetShippingOptions.selectOptions shipping data = jsSort byPrice t := by
    simp only [GetShippingOptions.selectOptions, hHome]
    simp only [Bool.false_eq_true, if_false]
    rw [heq]
    simp
  rw [hsel]
  refine ⟨?_, ?_, ?_⟩
  · rw [length_jsSort]
    simpa using hlen
  · unfold DistinctCarriers at hd ⊢
    simp only [List.nil_append] at hd
    exact (jsSort_perm byPrice t).symm.pairwise hd (fun h => Ne.symm h)
  · intro hNaN
    apply jsSort_ascending
    intro o ho
    have h1 : o ∈ jsSort byPrice ((data.filter GetShippingOptions.baseFilter).filter
        (fun o => !o.requirements.is_service_point_required)) := ht.subset ho
    rw [mem_jsSort, List.mem_filter, List.mem_filter] at h1
    apply hNaN o h1.1.1
    simp only [eligibleHome, h1.1.2, h1.2, Bool.and_self]

theorem GetShippingOptions.selectOptions_pickup (shipping : Shipping)
    (data : List ShippingOption) (hPickup : truthy shipping.id = true) :
    GetShippingOptions.selectOptions shipping data =
      jsSort byPrice ((data.filter GetShippingOptions.baseFilter).filter (fun o =>
        o.requirements.is_service_point_required &&
        decide (some o.carrier.code = shipping.carrier_code))) := by
  simp only [GetShippingOptions.selectOptions, hPickup, if_true]

/-- C1 (amended): in home-delivery mode the listing function answers either with status 500 or
with status 200 and a list of at most 3 options, no two of the same carrier; the list is sorted
ascending by parsed price, equal prices allowed, whenever the price of every upstream option
kept by the home-delivery filters parses to a number. -/
theorem C1_home_options_capped_distinct_ascending (env : RateEnv)
    (fetch : RateRequest → FetchOutcome) (event : Event) (shipping : Shipping)
    (hMethod : event.httpMethod = "POST")
    (hPayload : event.payload = some { shipping := some shipping })
    (hHome : truthy shipping.id = false) :
    (∃ e, GetShippingOptions.handler env fetch event =
        { statusCode := 500, body := .errorMessage e }) ∨
    ∃ opts, GetShippingOptions.handler env fetch event =
        { statusCode := 200, body := .options opts } ∧
      opts.length ≤ 3 ∧ DistinctCarriers opts ∧
      ((∀ o ∈ upstreamData (fetch (GetShippingOptions.bodyV3 env shipping)),
          eligibleHome o = true → (parsedPrice o).isNaN = false) → Ascending opts) := by
  rw [GetShippingOptions.options_handler_post env fetch event shipping hMethod hPayload]
  rcases GetShippingOptions.fetchOptions_cases shipping
    (fetch (GetShippingOptions.bodyV3 env shipping)) with h | ⟨_, h⟩ | ⟨_, h⟩
  · left
    exact ⟨.runtime, by rw [h]⟩
  · right
    refine ⟨[], by rw [h], by simp, by simp [DistinctCarriers], fun _ => by simp [Ascending]⟩
  · right
    obtain ⟨h1, h2, h3⟩ := GetShippingOptions.selectOptions_home shipping
      (upstreamData (fetch (GetShippingOptions.bodyV3 env shipping))) hHome
    exact ⟨_, by rw [h], h1, h2, h3⟩

/-- Witness for C1: four home carriers, one of them twice, and a pickup-point product. -/
theorem C1_home_options_witness :
    truthy homeShipping.id = false ∧
    ((∃ e, GetShippingOptions.handler sampleEnv (fun _ => .json 200 (.data fourCarriers))
          (postEvent homeShipping) = { statusCode := 500, body := .errorMessage e }) ∨
    ∃ opts, GetShippingOptions.handler sampleEnv (fun _ => .json 200 (.data fourCarriers))
          (postEvent homeShipping) = { statusCode := 200, body := .options opts } ∧
      opts.length ≤ 3 ∧ DistinctCarriers opts ∧
      ((∀ o ∈ upstreamData ((fun _ => FetchOutcome.json 200 (.data fourCarriers))
            (GetShippingOptions.bodyV3 sampleEnv homeShipping)),
          eligibleHome o = true → (parsedPrice o).isNaN = false) → Ascending opts)) :=
  ⟨by decide, C1_home_options_capped_distinct_ascending sampleEnv
    (fun _ => .json 200 (.data fourCarriers)) (postEvent homeShipping) homeShipping rfl rfl
    (by decide)⟩

/-- Counterexample to C1 as stated: two carriers quoting the same price are both listed, so the
list is not strictly ascending; and with a price text that is not a number the list
`5.00, n/a, 3.00` comes back in that order, which is not ascending at all. -/
theorem C1_counterexample :
    GetShippingOptions.handler sampleEnv (fun _ => .json 200 (.data tieData))
        (postEvent homeShipping) = { statusCode := 200, body := .options tieData } ∧
    ¬ StrictlyAscending tieData ∧
    GetShippingOptions.handler sampleEnv (fun _ => .json 200 (.data nanData))
        (postEvent homeShipping) = { statusCode := 200, body := .options nanData } ∧
    ¬ Ascending nanData := by
  unfold StrictlyAscending Ascending
  decide!

/-- C2: in pickup-point mode the listing function answers either with status 500 or with
status 200 and a list whose every entry requires a service point and has the requested carrier
code; the list is empty when no upstream option has both. -/
theorem C2_pickup_options_match_carrier (env : RateEnv)
    (fetch : RateRequest → FetchOutcome) (event : Event) (shipping : Shipping)
    (hMethod : event.httpMethod = "POST")
    (hPayload : event.payload = some { shipping := some shipping })
    (hPickup : truthy shipping.id = true) :
    (∃ e, GetShippingOptions.handler env fetch event =
        { statusCode := 500, body := .errorMessage e }) ∨
    ∃ opts, GetShippingOptions.handler env fetch event =
        { statusCode := 200, body := .options opts } ∧
      (∀ o ∈ opts, o.requirements.is_service_point_required = true ∧
        some o.carrier.code = shipping.carrier_code) ∧
      ((∀ o ∈ upstreamData (fetch (GetShippingOptions.bodyV3 env shipping)),
          ¬ (o.requirements.is_service_point_required = true ∧
            some o.carrier.code = shipping.carrier_code)) → opts = []) := by
  rw [GetShippingOptions.options_handler_post env fetch event shipping hMethod hPayload]
  rcases GetShippingOptions.fetchOptions_cases shipping
    (fetch (GetShippingOptions.bodyV3 env shipping)) with h | ⟨_, h⟩ | ⟨_, h⟩
  · left
    exact ⟨.runtime, by rw [h]⟩
  · right
    exact ⟨[], by rw [h], by simp, fun _ => rfl⟩
  · right
    refine ⟨_, by rw [h], ?_, ?_⟩
    · intro o ho
      rw [GetShippingOptions.selectOptions_pickup shipping _ hPickup, mem_jsSort,
        List.mem_filter] at ho
      simpa using ho.2
    · intro hnone
      rw [GetShippingOptions.selectOptions_pickup shipping _ hPickup]
      have hnil : ((upstreamData (fetch (GetShippingOptions.bodyV3 env shipping))).filter
          GetShippingOptions.baseFilter).filter (fun o =>
            o.requirements.is_service_point_required &&
            decide (some o.carrier.code = shipping.carrier_code)) = [] := by
        rw [List.filter_eq_nil_iff]
        intro o ho
        have := hnone o (List.mem_filter.1 ho).1
        simpa using this
      rw [hnil]
      rfl

/-- Witness for C2: one upstream option is a pickup-point product of the requested carrier. -/
theorem C2_pickup_options_witness :
    truthy pickupShipping.id = true ∧
    ((∃ e, GetShippingOptions.handler sampleEnv (fun _ => .json 200 (.data fourCarriers))
          (postEvent pickupShipping) = { statusCode := 500, body := .errorMessage e }) ∨
    ∃ opts, GetShippingOptions.handler sampleEnv (fun _ => .json 200 (.data fourCarriers))
          (postEvent pickupShipping) = { statusCode := 200, body := .options opts } ∧
      (∀ o ∈ opts, o.requirements.is_service_point_required = true ∧
        some o.carrier.code = pickupShipping.carrier_code) ∧
      ((∀ o ∈ upstreamData ((fun _ => FetchOutcome.json 200 (.data fourCarriers))
            (GetShippingOptions.bodyV3 sampleEnv pickupShipping)),
          ¬ (o.requirements.is_service_point_required = true ∧
            some o.carrier.code = pickupShipping.carrier_code)) → opts = [])) :=
  ⟨by decide, C2_pickup_options_match_carrier sampleEnv
    (fun _ => .json 200 (.data fourCarriers)) (postEvent pickupShipping) pickupShipping rfl rfl
    (by decide)⟩

/-! ## The pricing functions -/

theorem GetShippingPrice.price_handler_post (env : RateEnv) (fetch : RateRequest → FetchOutcome)
    (event : Event) (shipping : Shipping) (hMethod : event.httpMethod = "POST")
    (hPayload : event.payload = some { shipping := some shipping }) :
    GetShippingPrice.handler env fetch event =
      GetShippingPrice.respond
        (GetShippingPrice.fetchPrice shipping (fetch (GetShippingPrice.bodyV3 env shipping))) := by
  unfold GetShippingPrice.handler
  rw [hMethod, hPayload]
  simp

theorem GetShippingPrice.fetchPrice_of_nil (shipping : Shipping) (outcome : FetchOutcome)
    (h : upstreamData outcome = []) :
    ∃ e, GetShippingPrice.fetchPrice shipping outcome = .error e := by
  cases outcome with
  | networkError => exact ⟨_, rfl⟩
  | invalidJson s => exact ⟨_, rfl⟩
  | json s body =>
    cases body with
    | null => exact ⟨_, rfl⟩
    | noData => exact ⟨_, rfl⟩
    | data l =>
      simp only [upstreamData] at h
      subst h
      exact ⟨_, rfl⟩

theorem GetShippingPrice.fetchPrice_of_ne_nil (shipping : Shipping) (outcome : FetchOutcome)
    (h : upstreamData outcome ≠ []) :
    ∃ o, GetShippingPrice.chooseOption shipping (upstreamData outcome) = some o ∧
      GetShippingPrice.fetchPrice shipping outcome = GetShippingPrice.extractAmount o := by
  cases outcome with
  | networkError => exact absurd rfl h
  | invalidJson s => exact absurd rfl h
  | json s body =>
    cases body with
    | null => exact absurd rfl h
    | noData => exact absurd rfl h
    | data l =>
      cases l with
      | nil => exact absurd rfl h
      | cons a t =>
        cases hc : GetShippingPrice.chooseOption shipping (a :: t) with
        | none =>
          exfalso
          simp only [GetShippingPrice.chooseOption, firstFound] at hc
          split at hc
          · exact absurd hc (by simp)
          · split at hc
            · exact absurd hc (by simp)
            · simp at hc
        | some o =>
          refine ⟨o, by simpa [upstreamData] using hc, ?_⟩
          simp [GetShippingPrice.fetchPrice, GetShippingPrice.priceOfJson, hc]

theorem isFirstWith_of_find (p : ShippingOption → Bool) (data : List ShippingOption)
    (o : ShippingOption) (h : data.find? p = some o) : IsFirstWith p data o := by
  obtain ⟨hp, pre, post, hd, hpre⟩ := List.find?_eq_some.1 h
  exact ⟨pre, post, hd, hp, fun x hx => by simpa using hpre x hx⟩

theorem pred_of_find (p : ShippingOption → Bool) (data : List ShippingOption)
    (o : ShippingOption) (h : data.find? p = some o) : p o = true :=
  (List.find?_eq_some.1 h).1

theorem GetShippingPrice.chooseOption_spec (shipping : Shipping) (data : List ShippingOption)
    (o : ShippingOption) (h : GetShippingPrice.chooseOption shipping data = some o) :
    SelectedBySpec shipping data o := by
  unfold SelectedBySpec
  simp only [GetShippingPrice.chooseOption, firstFound] at h
  by_cases hid : truthy shipping.id = true
  · cases hsp : data.find? (fun x => x.requirements.is_service_point_required) with
    | some a =>
      simp only [hid, if_true, hsp, Option.some.injEq] at h
      subst h
      left
      exact ⟨⟨hid, a, List.mem_of_find?_eq_some hsp, pred_of_find _ _ _ hsp⟩,
        isFirstWith_of_find _ _ _ hsp⟩
    | none =>
      have hno : ¬ (truthy shipping.id = true ∧
          ∃ x ∈ data, x.requirements.is_service_point_required = true) := by
        rintro ⟨_, x, hx, hpx⟩
        exact (List.find?_eq_none.1 hsp) x hx hpx
      simp only [hid, if_true, hsp] at h
      cases hh : data.find? (fun x => startsWith x.code "colissimo:home") with
      | some b =>
        simp only [hh, Option.some.injEq] at h
        subst h
        right; left
        exact ⟨hno, ⟨b, List.mem_of_find?_eq_some hh, pred_of_find _ _ _ hh⟩,
          isFirstWith_of_find _ _ _ hh⟩
      | none =>
        simp only [hh] at h
        right; right
        refine ⟨hno, ?_, h⟩
        rintro ⟨x, hx, hpx⟩
        exact (List.find?_eq_none.1 hh) x hx hpx
  · have hno : ¬ (truthy shipping.id = true ∧
        ∃ x ∈ data, x.requirements.is_service_point_required = true) := fun hh => hid hh.1
    have hid' : truthy shipping.id = false := by simpa using hid
    simp only [hid', Bool.false_eq_true, if_false] at h
    cases hh : data.find? (fun x => startsWith x.code "colissimo:home") with
    | some b =>
      simp only [hh, Option.some.injEq] at h
      subst h
      right; left
      exact ⟨hno, ⟨b, List.mem_of_find?_eq_some hh, pred_of_find _ _ _ hh⟩,
        isFirstWith_of_find _ _ _ hh⟩
    | none =>
      simp only [hh] at h
      right; right
      refine ⟨hno, ?_, h⟩
      rintro ⟨x, hx, hpx⟩
      exact (List.find?_eq_none.1 hh) x hx hpx

/-- C3: the pricing function answers 500 when the upstream list is empty or absent; otherwise
it answers with the price of the option chosen in the stated order (200 with the amount, or 500
when that option has no quote or no parsable price): in pickup-point mode the first option
requiring a service point if one exists, otherwise the first option whose code starts with
`colissimo:home` if one exists, otherwise the first option of the list. -/
theorem C3_price_selection_order (env : RateEnv) (fetch : RateRequest → FetchOutcome)
    (event : Event) (shipping : Shipping) (hMethod : event.httpMethod = "POST")
    (hPayload : event.payload = some { shipping := some shipping }) :
    (upstreamData (fetch (GetShippingPrice.bodyV3 env shipping)) = [] →
      ∃ e, GetShippingPrice.handler env fetch event =
        { statusCode := 500, body := .errorMessage e }) ∧
    (upstreamData (fetch (GetShippingPrice.bodyV3 env shipping)) ≠ [] →
      ∃ o, SelectedBySpec shipping
          (upstreamData (fetch (GetShippingPrice.bodyV3 env shipping))) o ∧
        GetShippingPrice.handler env fetch event =
          GetShippingPrice.respond (GetShippingPrice.extractAmount o)) := by
  rw [GetShippingPrice.price_handler_post env fetch event shipping hMethod hPayload]
  constructor
  · intro h
    obtain ⟨e, he⟩ := GetShippingPrice.fetchPrice_of_nil shipping _ h
    exact ⟨e, by rw [he]; rfl⟩
  · intro h
    obtain ⟨o, ho, hf⟩ := GetShippingPrice.fetchPrice_of_ne_nil shipping _ h
    exact ⟨o, GetShippingPrice.chooseOption_spec shipping _ o ho, by rw [hf]⟩

/-- Witness for C3: a pickup-point request against a list holding one pickup-point product. -/
theorem C3_price_selection_witness :
    (upstreamData ((fun _ => FetchOutcome.json 200 (.data fourCarriers))
        (GetShippingPrice.bodyV3 sampleEnv pickupShipping)) = [] →
      ∃ e, GetShippingPrice.handler sampleEnv (fun _ => .json 200 (.data fourCarriers))
        (postEvent pickupShipping) = { statusCode := 500, body := .errorMessage e }) ∧
    (upstreamData ((fun _ => FetchOutcome.json 200 (.data fourCarriers))
        (GetShippingPrice.bodyV3 sampleEnv pickupShipping)) ≠ [] →
      ∃ o, SelectedBySpec pickupShipping
          (upstreamData ((fun _ => FetchOutcome.json 200 (.data fourCarriers))
            (GetShippingPrice.bodyV3 sampleEnv pickupShipping))) o ∧
        GetShippingPrice.handler sampleEnv (fun _ => .json 200 (.data fourCarriers))
          (postEvent pickupShipping) =
          GetShippingPrice.respond (GetShippingPrice.extractAmount o)) :=
  C3_price_selection_order sampleEnv (fun _ => .json 200 (.data fourCarriers))
    (postEvent pickupShipping) pickupShipping rfl rfl

theorem except_error_iff_of_ok_iff {ε α : Type} (r1 r2 : Except ε α)
    (h : ∀ a, r1 = .ok a ↔ r2 = .ok a) :
    (∃ e, r1 = .error e) ↔ ∃ e, r2 = .error e := by
  cases r1 with
  | ok a =>
    cases r2 with
    | ok b => simp
    | error e => exact absurd ((h a).1 rfl) (by simp)
  | error e =>
    cases r2 with
    | ok b => exact absurd ((h b).2 rfl) (by simp)
    | error e' => simp

theorem GetShippingPrice.respond_eq_amount (r : Except JSError JSNum) (a : JSNum) :
    GetShippingPrice.respond r = { statusCode := 200, body := .amount a } ↔ r = .ok a := by
  cases r <;> simp [GetShippingPrice.respond]

theorem GetShippingPrice.respond_eq_error (r : Except JSError JSNum) :
    (∃ e, GetShippingPrice.respond r = { statusCode := 500, body := .errorMessage e }) ↔
      ∃ e, r = .error e := by
  cases r <;> simp [GetShippingPrice.respond]

theorem extractAmount_agree (o : ShippingOption) (a : JSNum) :
    GetShippingPrice.extractAmount o = .ok a ↔ CreateCheckout.extractAmount o = .ok a := by
  unfold GetShippingPrice.extractAmount CreateCheckout.extractAmount
  cases hq : o.quotes with
  | none => simp
  | some qs =>
    cases qs with
    | nil => simp
    | cons q rest =>
      simp only [Option.getD_some]
      cases hv : quoteValue q with
      | error e => simp
      | ok v =>
        by_cases hn : (parseFloatOpt v).isNaN = true
        · simp [hn]
        · simp [hn]

theorem chooseOption_agree (shipping : Shipping) (data : List ShippingOption)
    (hAgree : truthy shipping.id = false ∨
      (∃ o ∈ data, o.requirements.is_service_point_required = true) ∨
      (∀ o ∈ data, startsWith o.code "colissimo:home" = false)) :
    GetShippingPrice.chooseOption shipping data = CreateCheckout.chooseOption shipping data := by
  unfold GetShippingPrice.chooseOption CreateCheckout.chooseOption
  by_cases hid : truthy shipping.id = true
  · simp only [hid, if_true]
    rcases hAgree with h | ⟨x, hx, hpx⟩ | h
    · rw [hid] at h
      exact absurd h (by simp)
    · cases hsp : data.find? (fun o => o.requirements.is_service_point_required) with
      | some a => rfl
      | none => exact absurd hpx (List.find?_eq_none.1 hsp x hx)
    · have hnone : data.find? (fun o => startsWith o.code "colissimo:home") = none := by
        rw [List.find?_eq_none]
        intro x hx
        simp [h x hx]
      rw [hnone]
  · have hid' : truthy shipping.id = false := by simpa using hid
    simp only [hid', Bool.false_eq_true, if_false]
    cases data.find? (fun o => startsWith o.code "colissimo:home") <;> rfl

theorem priceOfJson_agree (shipping : Shipping) (body : RateJson) (status : ℕ)
    (hc : GetShippingPrice.chooseOption shipping (upstreamData (.json status body)) =
      CreateCheckout.chooseOption shipping (upstreamData (.json status body))) (a : JSNum) :
    GetShippingPrice.priceOfJson shipping body = .ok a ↔
      CreateCheckout.amountOfJson shipping body = .ok a := by
  cases body with
  | null => simp [GetShippingPrice.priceOfJson, CreateCheckout.amountOfJson]
  | noData => simp [GetShippingPrice.priceOfJson, CreateCheckout.amountOfJson]
  | data l =>
    simp only [upstreamData] at hc
    simp only [GetShippingPrice.priceOfJson, CreateCheckout.amountOfJson, ← hc]
    by_cases hl : l.length = 0
    · simp [hl]
    · simp only [hl, if_false]
      cases GetShippingPrice.chooseOption shipping l with
      | none => simp
      | some o => exact extractAmount_agree o a

/-- Where the two pricing paths do agree: given the same upstream answer, the pricing function
and `getShippingAmountCents` choose the same option, yield the same amount, and fail together,
whenever the destination is in home-delivery mode, or some upstream option requires a service
point, or no upstream option code starts with `colissimo:home`. -/
theorem pricing_paths_agree (env : RateEnv)
    (fetchQuote fetchCharge : RateRequest → FetchOutcome) (event : Event) (shipping : Shipping)
    (hMethod : event.httpMethod = "POST")
    (hPayload : event.payload = some { shipping := some shipping })
    (hSame : fetchCharge (CreateCheckout.bodyV3 env shipping) =
      fetchQuote (GetShippingPrice.bodyV3 env shipping))
    (hAgree : truthy shipping.id = false ∨
      (∃ o ∈ upstreamData (fetchQuote (GetShippingPrice.bodyV3 env shipping)),
        o.requirements.is_service_point_required = true) ∨
      (∀ o ∈ upstreamData (fetchQuote (GetShippingPrice.bodyV3 env shipping)),
        startsWith o.code "colissimo:home" = false)) :
    GetShippingPrice.chooseOption shipping
        (upstreamData (fetchQuote (GetShippingPrice.bodyV3 env shipping))) =
      CreateCheckout.chooseOption shipping
        (upstreamData (fetchQuote (GetShippingPrice.bodyV3 env shipping))) ∧
    (∀ a, GetShippingPrice.handler env fetchQuote event =
        { statusCode := 200, body := .amount a } ↔
      CreateCheckout.getShippingAmountCents env fetchCharge shipping = .ok a) ∧
    ((∃ e, GetShippingPrice.handler env fetchQuote event =
        { statusCode := 500, body := .errorMessage e }) ↔
      ∃ e, CreateCheckout.getShippingAmountCents env fetchCharge shipping = .error e) := by
  have hc := chooseOption_agree shipping _ hAgree
  have hok : ∀ a, GetShippingPrice.fetchPrice shipping
        (fetchQuote (GetShippingPrice.bodyV3 env shipping)) = .ok a ↔
      CreateCheckout.getShippingAmountCents env fetchCharge shipping = .ok a := by
    intro a
    unfold CreateCheckout.getShippingAmountCents GetShippingPrice.fetchPrice
    rw [hSame]
    cases hf : fetchQuote (GetShippingPrice.bodyV3 env shipping) with
    | networkError => simp
    | invalidJson s => simp
    | json s body =>
      rw [hf] at hc
      exact priceOfJson_agree shipping body s hc a
  rw [GetShippingPrice.price_handler_post env fetchQuote event shipping hMethod hPayload]
  refine ⟨hc, ?_, ?_⟩
  · intro a
    rw [GetShippingPrice.respond_eq_amount]
    exact hok a
  · rw [GetShippingPrice.respond_eq_error]
    exact except_error_iff_of_ok_iff _ _ hok

/-- The two pricing paths on a home-delivery request against a list with a `colissimo:home`
product. -/
theorem pricing_paths_agree_home :
    GetShippingPrice.chooseOption homeShipping
        (upstreamData ((fun _ => FetchOutcome.json 200 (.data fourCarriers))
          (GetShippingPrice.bodyV3 sampleEnv homeShipping))) =
      CreateCheckout.chooseOption homeShipping
        (upstreamData ((fun _ => FetchOutcome.json 200 (.data fourCarriers))
          (GetShippingPrice.bodyV3 sampleEnv homeShipping))) ∧
    (∀ a, GetShippingPrice.handler sampleEnv (fun _ => .json 200 (.data fourCarriers))
        (postEvent homeShipping) = { statusCode := 200, body := .amount a } ↔
      CreateCheckout.getShippingAmountCents sampleEnv (fun _ => .json 200 (.data fourCarriers))
        homeShipping = .ok a) ∧
    ((∃ e, GetShippingPrice.handler sampleEnv (fun _ => .json 200 (.data fourCarriers))
        (postEvent homeShipping) = { statusCode := 500, body := .errorMessage e }) ↔
      ∃ e, CreateCheckout.getShippingAmountCents sampleEnv
        (fun _ => .json 200 (.data fourCarriers)) homeShipping = .error e) :=
  pricing_paths_agree sampleEnv (fun _ => .json 200 (.data fourCarriers))
    (fun _ => .json 200 (.data fourCarriers)) (postEvent homeShipping) homeShipping rfl rfl rfl
    (Or.inl (by decide))

/-- C4 (code bug): in pickup-point mode, with no upstream option requiring a service point
and `colissimo:home` second in the list, the stated selection order picks `colissimo:home` and
so does the pricing function, which shows 500 cents; `getShippingAmountCents` skips that step,
picks the first option of the list, `chronopost:home`, and charges 900 cents. -/
theorem C4_shown_and_charged_differ :
    truthy pickupShipping.id = true ∧
    SelectedBySpec pickupShipping homeOnlyData
      (mkOption "colissimo:home" "colissimo" false "5.00") ∧
    GetShippingPrice.chooseOption pickupShipping homeOnlyData =
      some (mkOption "colissimo:home" "colissimo" false "5.00") ∧
    CreateCheckout.chooseOption pickupShipping homeOnlyData =
      some (mkOption "chronopost:home" "chronopost" false "9.00") ∧
    GetShippingPrice.handler sampleEnv (fun _ => .json 200 (.data homeOnlyData))
        (postEvent pickupShipping) = { statusCode := 200, body := .amount (.fin 500) } ∧
    CreateCheckout.getShippingAmountCents sampleEnv (fun _ => .json 200 (.data homeOnlyData))
        pickupShipping = .ok (.fin 900) := by
  have hc : GetShippingPrice.chooseOption pickupShipping homeOnlyData =
      some (mkOption "colissimo:home" "colissimo" false "5.00") := by decide!
  exact ⟨by decide, GetShippingPrice.chooseOption_spec pickupShipping homeOnlyData _ hc, hc,
    by decide!, by decide!, by decide!⟩

theorem GetShippingPrice.price_chooseOption_singleton (shipping : Shipping) (o : ShippingOption) :
    GetShippingPrice.chooseOption shipping [o] = some o := by
  unfold GetShippingPrice.chooseOption firstFound
  by_cases hid : truthy shipping.id = true <;>
    by_cases hsp : o.requirements.is_service_point_required = true <;>
    by_cases hh : startsWith o.code "colissimo:home" = true <;>
    simp [hid, hsp, hh, List.find?]

theorem CreateCheckout.checkout_chooseOption_singleton (shipping : Shipping) (o : ShippingOption) :
    CreateCheckout.chooseOption shipping [o] = some o := by
  unfold CreateCheckout.chooseOption firstFound
  by_cases hid : truthy shipping.id = true <;>
    by_cases hsp : o.requirements.is_service_point_required = true <;>
    by_cases hh : startsWith o.code "colissimo:home" = true <;>
    simp [hid, hsp, hh, List.find?]

theorem JSNum.toDouble_isNaN (x : ℚ) : (JSNum.toDouble x).isNaN = false := by
  unfold JSNum.toDouble
  split
  · rfl
  · simp only
    split
    · split <;> rfl
    · rfl

theorem JSNum.round_cents_of_two_decimals (N : ℕ) (hN : N < 2 ^ (50 : ℕ)) :
    JSNum.round ((JSNum.toDouble ((N : ℚ) / 100)).mul (JSNum.fin 100)) = JSNum.fin N := by
  rcases Nat.eq_zero_or_pos N with h0 | hpos
  · subst h0
    have hz : JSNum.toDouble 0 = JSNum.fin 0 := by simp [JSNum.toDouble]
    simp only [Nat.cast_zero, zero_div, hz, JSNum.mul, zero_mul, JSNum.round]
    norm_num
  · have hNq : (1 : ℚ) ≤ (N : ℚ) := by exact_mod_cast hpos
    have hNlt : (N : ℚ) < 2 ^ (50 : ℕ) := by exact_mod_cast hN
    have hcents : (N : ℚ) / 100 * 100 = N := by field_simp
    have h := JSNum.round_cents_of_clear ((N : ℚ) / 100) (N : ℤ)
      (by
        have h1 : 1 / (2 : ℚ) ^ (1000 : ℕ) ≤ 1 / 100 := by norm_num
        have h2 : (1 : ℚ) / 100 ≤ (N : ℚ) / 100 :=
          div_le_div_of_nonneg_right hNq (by norm_num)
        exact h1.trans h2)
      (by
        have h1 : (N : ℚ) / 100 ≤ (N : ℚ) := div_le_self (by linarith) (by norm_num)
        have h2 : (2 : ℚ) ^ (50 : ℕ) ≤ 2 ^ (990 : ℕ) := by norm_num
        linarith)
      (by
        rw [hcents]
        have h51 : (N : ℚ) / 2 ^ (51 : ℕ) ≤ 1 / 2 := by
          rw [div_le_iff₀ (by positivity)]
          have : (1 : ℚ) / 2 * 2 ^ (51 : ℕ) = 2 ^ (50 : ℕ) := by norm_num
          rw [this]
          exact hNlt.le
        push_cast
        linarith)
      (by
        rw [hcents]
        have h51 : (N : ℚ) / 2 ^ (51 : ℕ) < 1 / 2 := by
          rw [div_lt_iff₀ (by positivity)]
          have : (1 : ℚ) / 2 * 2 ^ (51 : ℕ) = 2 ^ (50 : ℕ) := by norm_num
          rw [this]
          exact hNlt
        push_cast
        linarith)
    simpa using h

theorem roundHalfAwayFromZero_of_between (x : ℚ) (n : ℤ) (hx : 0 ≤ x)
    (h1 : (n : ℚ) - 1 / 2 ≤ x) (h2 : x < (n : ℚ) + 1 / 2) :
    roundHalfAwayFromZero x = n := by
  unfold roundHalfAwayFromZero
  rw [if_pos hx]
  exact Int.floor_eq_iff.2 ⟨by linarith, by linarith⟩

theorem extractAmount_of_value (option : ShippingOption) (q : Quote) (rest : List Quote)
    (v : String) (hq : option.quotes = some (q :: rest)) (hv : quoteValue q = .ok (some v))
    (hn : (parseFloat v).isNaN = false) :
    GetShippingPrice.extractAmount option =
      .ok (JSNum.round ((parseFloat v).mul (JSNum.fin 100))) ∧
    CreateCheckout.extractAmount option =
      .ok (JSNum.round ((parseFloat v).mul (JSNum.fin 100))) := by
  constructor
  · simp [GetShippingPrice.extractAmount, hq, hv, parseFloatOpt, hn]
  · simp [CreateCheckout.extractAmount, hq, hv, parseFloatOpt, hn]

theorem amount_12_345 (code carrier : String) (servicePoint : Bool) :
    GetShippingPrice.extractAmount (mkOption code carrier servicePoint "12.345") =
      .ok (JSNum.fin 1235) ∧
    CreateCheckout.extractAmount (mkOption code carrier servicePoint "12.345") =
      .ok (JSNum.fin 1235) := by
  have hn : (parseFloat "12.345").isNaN = false := by decide!
  have hr : JSNum.round ((parseFloat "12.345").mul (JSNum.fin 100)) = JSNum.fin 1235 := by
    decide!
  have h := extractAmount_of_value (mkOption code carrier servicePoint "12.345")
    { price := some { total := some { value := some "12.345" } } } [] "12.345" rfl rfl hn
  rw [hr] at h
  exact h

/-- C5 (amended): when the first quote of the chosen option has a price text that denotes the
decimal number `p`, both price computations work in doubles: they return `Math.round` of the
double product of the double nearest to `p` and 100, that is the integer `n` nearest to that
product `y` with a tie going up (`n - 1/2 ≤ y < n + 1/2`).  This is `p × 100` rounded half
away from zero whenever `p` lies between `2^(-1000)` and `2^990` and `p × 100` keeps a distance
of `p × 100 / 2^51` from the two half-integers around it, in particular whenever `p × 100` is
an integer below `2^50` (a price with at most two decimals); and a single quote priced
`12.345` yields 1235 cents. -/
theorem C5_amount_is_rounded_double_product (option : ShippingOption) (q : Quote)
    (rest : List Quote) (v : String) (p : ℚ) (hq : option.quotes = some (q :: rest))
    (hv : quoteValue q = .ok (some v)) (hp : readStrDecimal v = .finite p) :
    (GetShippingPrice.extractAmount option =
        .ok (JSNum.round ((JSNum.toDouble p).mul (JSNum.fin 100))) ∧
      CreateCheckout.extractAmount option =
        .ok (JSNum.round ((JSNum.toDouble p).mul (JSNum.fin 100)))) ∧
    (∀ d y : ℚ, JSNum.toDouble p = JSNum.fin d → JSNum.toDouble (d * 100) = JSNum.fin y →
      JSNum.round ((JSNum.toDouble p).mul (JSNum.fin 100)) = JSNum.fin (⌊y + 1 / 2⌋ : ℤ) ∧
      (⌊y + 1 / 2⌋ : ℚ) - 1 / 2 ≤ y ∧ y < (⌊y + 1 / 2⌋ : ℚ) + 1 / 2) ∧
    (∀ n : ℤ, 1 / (2 : ℚ) ^ (1000 : ℕ) ≤ p → p ≤ (2 : ℚ) ^ (990 : ℕ) →
      (n : ℚ) - 1 / 2 + p * 100 / 2 ^ (51 : ℕ) ≤ p * 100 →
      p * 100 + p * 100 / 2 ^ (51 : ℕ) < (n : ℚ) + 1 / 2 →
      JSNum.round ((JSNum.toDouble p).mul (JSNum.fin 100)) = JSNum.fin n ∧
      roundHalfAwayFromZero (p * 100) = n) ∧
    (∀ N : ℕ, p * 100 = N → N < 2 ^ (50 : ℕ) →
      JSNum.round ((JSNum.toDouble p).mul (JSNum.fin 100)) = JSNum.fin N ∧
      roundHalfAwayFromZero (p * 100) = N) ∧
    (∀ (env : RateEnv) (shipping : Shipping) (code carrier : String) (servicePoint : Bool),
      GetShippingPrice.handler env
          (fun _ => .json 200 (.data [mkOption code carrier servicePoint "12.345"]))
          (postEvent shipping) = { statusCode := 200, body := .amount (JSNum.fin 1235) } ∧
      CreateCheckout.getShippingAmountCents env
          (fun _ => .json 200 (.data [mkOption code carrier servicePoint "12.345"]))
          shipping = .ok (JSNum.fin 1235)) := by
  have hpf : parseFloat v = JSNum.toDouble p := by
    simp only [parseFloat, hp]
  refine ⟨?_, ?_, ?_, ?_, ?_⟩
  · have h := extractAmount_of_value option q rest v hq hv
      (by rw [hpf]; exact JSNum.toDouble_isNaN p)
    rw [hpf] at h
    exact h
  · intro d y hd hy
    refine ⟨by simp only [hd, JSNum.mul, hy, JSNum.round], ?_, ?_⟩
    · have h := Int.floor_le (y + 1 / 2)
      linarith
    · have h := Int.lt_floor_add_one (y + 1 / 2)
      linarith
  · intro n hlo hhi h1 h2
    have hp0 : 0 < p := lt_of_lt_of_le (by positivity) hlo
    have hX : 0 ≤ p * 100 / 2 ^ (51 : ℕ) := by positivity
    refine ⟨JSNum.round_cents_of_clear p n hlo hhi h1 h2, ?_⟩
    exact roundHalfAwayFromZero_of_between (p * 100) n (by positivity) (by linarith)
      (by linarith)
  · intro N hN hlt
    have hpN : p = (N : ℚ) / 100 := by
      rw [← hN]; field_simp
    refine ⟨by rw [hpN]; exact JSNum.round_cents_of_two_decimals N hlt, ?_⟩
    rw [hN]
    have h := roundHalfAwayFromZero_of_between (N : ℚ) (N : ℤ) (by positivity)
      (by push_cast; linarith) (by push_cast; linarith)
    exact_mod_cast h
  · intro env shipping code carrier servicePoint
    obtain ⟨h1, h2⟩ := amount_12_345 code carrier servicePoint
    constructor
    · rw [GetShippingPrice.price_handler_post env _ (postEvent shipping) shipping rfl rfl]
      simp only [GetShippingPrice.fetchPrice, GetShippingPrice.priceOfJson,
        List.length_singleton, one_ne_zero, if_false,
        GetShippingPrice.price_chooseOption_singleton, h1, GetShippingPrice.respond]
    · simp only [CreateCheckout.getShippingAmountCents, CreateCheckout.amountOfJson,
        List.length_singleton, one_ne_zero, if_false,
        CreateCheckout.checkout_chooseOption_singleton, h2]

/-- Witness for C5: the quote priced `4.95` yields 495 cents on both paths. -/
theorem C5_amount_witness :
    readStrDecimal "4.95" = .finite (99 / 20) ∧
    GetShippingPrice.extractAmount (mkOption "colissimo:home" "colissimo" false "4.95") =
      .ok (JSNum.fin 495) ∧
    CreateCheckout.extractAmount (mkOption "colissimo:home" "colissimo" false "4.95") =
      .ok (JSNum.fin 495) := by
  have hp : readStrDecimal "4.95" = .finite (99 / 20) := by decide!
  obtain ⟨⟨h1, h2⟩, _, _, h4, _⟩ := C5_amount_is_rounded_double_product
    (mkOption "colissimo:home" "colissimo" false "4.95")
    { price := some { total := some { value := some "4.95" } } } [] "4.95" (99 / 20) rfl rfl hp
  have h495 := (h4 495 (by norm_num) (by norm_num)).1
  rw [h495] at h1 h2
  exact ⟨hp, h1, h2⟩

/-- Counterexample to C5 as stated: the price text `1.005` denotes `201/200`, so `p × 100` is
`100.5` and rounds half away from zero to 101; the double nearest to `1.005` lies below it,
the double product is `100.49999999999999`, and both price computations return 100 cents. -/
theorem C5_counterexample :
    readStrDecimal "1.005" = .finite (201 / 200) ∧
    roundHalfAwayFromZero ((201 / 200 : ℚ) * 100) = 101 ∧
    GetShippingPrice.handler sampleEnv (fun _ => .json 200 (.data thousandthsData))
        (postEvent homeShipping) = { statusCode := 200, body := .amount (JSNum.fin 100) } ∧
    CreateCheckout.getShippingAmountCents sampleEnv (fun _ => .json 200 (.data thousandthsData))
        homeShipping = .ok (JSNum.fin 100) := by
  decide!

/-! ## The webhook -/

theorem WebhookStripe.handler_confirmed (env : WebhookStripe.Env)
    (stripeEvent : WebhookStripe.StripeEvent) (metadata : WebhookStripe.Metadata)
    (shipping : WebhookStripe.Shipping) (code phone : String)
    (hOrder : ConfirmedOrder stripeEvent metadata shipping code)
    (hPhone : WebhookStripe.resolvePhone stripeEvent.session shipping = .ok phone) :
    WebhookStripe.handler env (some stripeEvent) =
      .ok { statusCode := 200
            body := "OK"
            dispatch := some
              { endpoint := WebhookStripe.endpoint shipping
                authUser := env.SENDCLOUD_PUBLIC_KEY
                authPass := env.SENDCLOUD_SECRET_KEY
                payload := WebhookStripe.buildPayload env stripeEvent.session shipping code
                  (orElse metadata.name "") (orElse metadata.email "") phone }
            mailSubject := some ("Nouvelle commande " ++ stripeEvent.session.id) } := by
  obtain ⟨hType, hMeta, hShip, hCode, hNe⟩ := hOrder
  unfold WebhookStripe.handler
  simp only [hType, hMeta, hShip, hCode, hPhone, ne_eq, not_true_eq_false, if_false, hNe]

theorem WebhookStripe.buildPayload_customs (env : WebhookStripe.Env)
    (session : WebhookStripe.Session) (shipping : WebhookStripe.Shipping)
    (code formName formEmail phone : String)
    (h : WebhookStripe.country shipping ≠ some "FR" ∧ truthy shipping.id = false) :
    CustomsBlock (WebhookStripe.buildPayload env session shipping code formName formEmail phone) ∧
    ∃ parcel item ci,
      (WebhookStripe.buildPayload env session shipping code formName formEmail phone).parcels =
        [parcel] ∧
      parcel.parcel_items = some [item] ∧ item.hs_code = "490199" ∧
      (WebhookStripe.buildPayload env session shipping code formName formEmail
        phone).customs_information = some ci ∧
      ci.export_reason = "commercial_goods" := by
  obtain ⟨hc, hid⟩ := h
  have hcustoms : (WebhookStripe.isIntl shipping && !truthy shipping.id) = true := by
    simp [WebhookStripe.isIntl, hc, hid]
  constructor
  · constructor
    · simp [WebhookStripe.buildPayload, hcustoms]
    · simp [WebhookStripe.buildPayload, hcustoms]
  · simp [WebhookStripe.buildPayload, hcustoms]

theorem WebhookStripe.buildPayload_noCustoms (env : WebhookStripe.Env)
    (session : WebhookStripe.Session) (shipping : WebhookStripe.Shipping)
    (code formName formEmail phone : String)
    (h : ¬ (WebhookStripe.country shipping ≠ some "FR" ∧ truthy shipping.id = false)) :
    NoCustoms (WebhookStripe.buildPayload env session shipping code formName formEmail phone) := by
  have hcustoms : (WebhookStripe.isIntl shipping && !truthy shipping.id) = false := by
    by_cases hc : WebhookStripe.country shipping = some "FR"
    · simp [WebhookStripe.isIntl, hc]
    · have hid : truthy shipping.id = true := by
        by_contra hid
        exact h ⟨hc, by simpa using hid⟩
      simp [hid]
  constructor
  · simp [WebhookStripe.buildPayload, hcustoms]
  · simp [WebhookStripe.buildPayload, hcustoms]

theorem customsBlock_not_noCustoms (payload : WebhookStripe.ShipmentPayload)
    (h : CustomsBlock payload) : ¬ NoCustoms payload :=
  fun hn => h.2 hn.2

/-- C6: for a confirmed order with a rate code the webhook posts a payload that carries a
customs block exactly when the destination country is not `FR` and there is no pickup-point
id: in that case the block is complete, with exactly one parcel item of `hs_code` `490199` and
`export_reason` `commercial_goods`; otherwise no part of it is present; and an order with a
pickup-point id has no customs block and `to_service_point` set to that id. -/
theorem C6_customs_block_iff_international_home (env : WebhookStripe.Env)
    (stripeEvent : WebhookStripe.StripeEvent) (metadata : WebhookStripe.Metadata)
    (shipping : WebhookStripe.Shipping) (code phone : String)
    (hOrder : ConfirmedOrder stripeEvent metadata shipping code)
    (hPhone : WebhookStripe.resolvePhone stripeEvent.session shipping = .ok phone) :
    ∃ r d, WebhookStripe.handler env (some stripeEvent) = .ok r ∧ r.dispatch = some d ∧
      (CustomsBlock d.payload ↔
        (WebhookStripe.country shipping ≠ some "FR" ∧ truthy shipping.id = false)) ∧
      (CustomsBlock d.payload →
        ∃ parcel item ci, d.payload.parcels = [parcel] ∧ parcel.parcel_items = some [item] ∧
          item.hs_code = "490199" ∧ d.payload.customs_information = some ci ∧
          ci.export_reason = "commercial_goods") ∧
      (¬ CustomsBlock d.payload → NoCustoms d.payload) ∧
      (truthy shipping.id = true →
        NoCustoms d.payload ∧ d.payload.to_service_point = shipping.id) := by
  refine ⟨_, _, WebhookStripe.handler_confirmed env stripeEvent metadata shipping code phone
    hOrder hPhone, rfl, ?_, ?_, ?_, ?_⟩
  · constructor
    · intro hb
      by_contra hn
      exact customsBlock_not_noCustoms _ hb
        (WebhookStripe.buildPayload_noCustoms env _ shipping code _ _ phone hn)
    · intro h
      exact (WebhookStripe.buildPayload_customs env _ shipping code _ _ phone h).1
  · intro hb
    by_cases h : WebhookStripe.country shipping ≠ some "FR" ∧ truthy shipping.id = false
    · exact (WebhookStripe.buildPayload_customs env _ shipping code _ _ phone h).2
    · exact absurd (WebhookStripe.buildPayload_noCustoms env _ shipping code _ _ phone h)
        (customsBlock_not_noCustoms _ hb)
  · intro hb
    by_cases h : WebhookStripe.country shipping ≠ some "FR" ∧ truthy shipping.id = false
    · exact absurd (WebhookStripe.buildPayload_customs env _ shipping code _ _ phone h).1 hb
    · exact WebhookStripe.buildPayload_noCustoms env _ shipping code _ _ phone h
  · intro hid
    refine ⟨WebhookStripe.buildPayload_noCustoms env _ shipping code _ _ phone ?_, ?_⟩
    · rintro ⟨_, h⟩
      rw [hid] at h
      exact absurd h (by simp)
    · simp [WebhookStripe.buildPayload, hid]

/-- Witness for C6: a home-delivery order to Germany gets the customs block. -/
theorem C6_customs_block_witness :
    ConfirmedOrder (completedEvent germanHome) (sampleMetadata germanHome) germanHome
      "dhl:home" ∧
    ∃ r d, WebhookStripe.handler webhookEnv (some (completedEvent germanHome)) = .ok r ∧
      r.dispatch = some d ∧ CustomsBlock d.payload := by
  have hOrder : ConfirmedOrder (completedEvent germanHome) (sampleMetadata germanHome)
      germanHome "dhl:home" := ⟨rfl, rfl, rfl, by decide, by decide⟩
  obtain ⟨r, d, h1, h2, h3, _⟩ := C6_customs_block_iff_international_home webhookEnv
    (completedEvent germanHome) (sampleMetadata germanHome) germanHome "dhl:home"
    "+33600000000" hOrder (by decide)
  exact ⟨hOrder, r, d, h1, h2, h3.2 ⟨by decide, by decide⟩⟩

theorem WebhookStripe.endpoint_announce_iff (shipping : WebhookStripe.Shipping) :
    WebhookStripe.endpoint shipping = "https://panel.sendcloud.sc/api/v3/shipments/announce" ↔
      (WebhookStripe.country shipping ≠ some "FR" ∧ truthy shipping.id = false) := by
  unfold WebhookStripe.endpoint WebhookStripe.isIntl
  by_cases hc : WebhookStripe.country shipping = some "FR"
  · simp [hc]
  · by_cases hid : truthy shipping.id = true
    · simp [hc, hid]
    · simp [hc, hid]

theorem WebhookStripe.endpoint_standard_iff (shipping : WebhookStripe.Shipping) :
    WebhookStripe.endpoint shipping = "https://panel.sendcloud.sc/api/v3/shipments" ↔
      ¬ (WebhookStripe.country shipping ≠ some "FR" ∧ truthy shipping.id = false) := by
  unfold WebhookStripe.endpoint WebhookStripe.isIntl
  by_cases hc : WebhookStripe.country shipping = some "FR"
  · simp [hc]
  · by_cases hid : truthy shipping.id = true
    · simp [hc, hid]
    · simp [hc, hid]

/-- C7: for a confirmed order the webhook posts the shipment to the `announce` endpoint
exactly when the destination country is not `FR` and there is no pickup-point id, and to the
standard shipments endpoint in every other combination; so the `announce` endpoint is used
exactly when the payload carries a customs block. -/
theorem C7_announce_endpoint_iff_international_home (env : WebhookStripe.Env)
    (stripeEvent : WebhookStripe.StripeEvent) (metadata : WebhookStripe.Metadata)
    (shipping : WebhookStripe.Shipping) (code phone : String)
    (hOrder : ConfirmedOrder stripeEvent metadata shipping code)
    (hPhone : WebhookStripe.resolvePhone stripeEvent.session shipping = .ok phone) :
    ∃ r d, WebhookStripe.handler env (some stripeEvent) = .ok r ∧ r.dispatch = some d ∧
      (d.endpoint = "https://panel.sendcloud.sc/api/v3/shipments/announce" ↔
        (WebhookStripe.country shipping ≠ some "FR" ∧ truthy shipping.id = false)) ∧
      (d.endpoint = "https://panel.sendcloud.sc/api/v3/shipments" ↔
        ¬ (WebhookStripe.country shipping ≠ some "FR" ∧ truthy shipping.id = false)) ∧
      (d.endpoint = "https://panel.sendcloud.sc/api/v3/shipments/announce" ↔
        CustomsBlock d.payload) := by
  refine ⟨_, _, WebhookStripe.handler_confirmed env stripeEvent metadata shipping code phone
    hOrder hPhone, rfl, WebhookStripe.endpoint_announce_iff shipping,
    WebhookStripe.endpoint_standard_iff shipping, ?_⟩
  rw [WebhookStripe.endpoint_announce_iff]
  constructor
  · intro h
    exact (WebhookStripe.buildPayload_customs env _ shipping code _ _ phone h).1
  · intro hb
    by_contra hn
    exact customsBlock_not_noCustoms _ hb
      (WebhookStripe.buildPayload_noCustoms env _ shipping code _ _ phone hn)

/-- Witness for C7: a pickup-point order to Germany goes to the standard endpoint. -/
theorem C7_announce_endpoint_witness :
    ConfirmedOrder (completedEvent germanPickup) (sampleMetadata germanPickup) germanPickup
      "dhl:pickup" ∧
    ∃ r d, WebhookStripe.handler webhookEnv (some (completedEvent germanPickup)) = .ok r ∧
      r.dispatch = some d ∧ d.endpoint = "https://panel.sendcloud.sc/api/v3/shipments" := by
  have hOrder : ConfirmedOrder (completedEvent germanPickup) (sampleMetadata germanPickup)
      germanPickup "dhl:pickup" := ⟨rfl, rfl, rfl, by decide, by decide⟩
  obtain ⟨r, d, h1, h2, _, h4, _⟩ := C7_announce_endpoint_iff_international_home webhookEnv
    (completedEvent germanPickup) (sampleMetadata germanPickup) germanPickup "dhl:pickup"
    "+33600000000" hOrder (by decide)
  exact ⟨hOrder, r, d, h1, h2, h4.2 (by decide)⟩

theorem hyphenated_ne_empty (c r : String) : c ++ "-" ++ r ≠ "" := by
  intro h
  have hlen := congrArg String.length h
  simp only [String.length_append] at hlen
  have h1 : "-".length = 1 := by decide
  have h0 : "".length = 0 := by decide
  omega

theorem WebhookStripe.stateProvinceCode_of_needed (shipping : WebhookStripe.Shipping)
    (r c : String) (hr : shipping.state_province_code = some r) (hne : r ≠ "")
    (hc : WebhookStripe.country shipping = some c)
    (hIn : c = "US" ∨ c = "CA" ∨ c = "AU" ∨ c = "NZ") :
    WebhookStripe.stateProvinceCode shipping =
      some (if includesChar r '-' then r else c ++ "-" ++ r) := by
  have hmem : c ∈ WebhookStripe.NEED_STATE := by
    simpa [WebhookStripe.NEED_STATE] using hIn
  simp [WebhookStripe.stateProvinceCode, hr, hc, hne, hmem]

theorem WebhookStripe.stateProvinceCode_of_not_needed (shipping : WebhookStripe.Shipping)
    (h : ∀ c, WebhookStripe.country shipping = some c →
      ¬ (c = "US" ∨ c = "CA" ∨ c = "AU" ∨ c = "NZ")) :
    WebhookStripe.stateProvinceCode shipping = none := by
  unfold WebhookStripe.stateProvinceCode
  cases hs : shipping.state_province_code with
  | none => rfl
  | some raw =>
    cases hc : WebhookStripe.country shipping with
    | none => rfl
    | some c =>
      have hn := h c hc
      have hmem : c ∉ WebhookStripe.NEED_STATE := by
        simpa [WebhookStripe.NEED_STATE] using hn
      simp [hmem]

/-- C8: for a destination with a non-empty raw region code `r`, the ship-to address has a
`state_province_code` only if the country `c` is `US`, `CA`, `AU` or `NZ`; it is then `r`
unchanged when `r` contains a hyphen and `c-r` otherwise; for any other country, or none, the
field is not emitted. -/
theorem C8_state_province_code (shipping : WebhookStripe.Shipping)
    (formName formEmail phone r : String)
    (hr : shipping.state_province_code = some r) (hne : r ≠ "") :
    (∀ c, WebhookStripe.country shipping = some c →
      (c = "US" ∨ c = "CA" ∨ c = "AU" ∨ c = "NZ") →
      (includesChar r '-' = true →
        (WebhookStripe.toAddress shipping formName formEmail phone).state_province_code =
          some r) ∧
      (includesChar r '-' = false →
        (WebhookStripe.toAddress shipping formName formEmail phone).state_province_code =
          some (c ++ "-" ++ r))) ∧
    ((∀ c, WebhookStripe.country shipping = some c →
        ¬ (c = "US" ∨ c = "CA" ∨ c = "AU" ∨ c = "NZ")) →
      (WebhookStripe.toAddress shipping formName formEmail phone).state_province_code = none) ∧
    (∀ (env : WebhookStripe.Env) (session : WebhookStripe.Session) (code : String),
      (WebhookStripe.buildPayload env session shipping code formName formEmail phone).to_address =
        WebhookStripe.toAddress shipping formName formEmail phone) := by
  refine ⟨?_, ?_, fun _ _ _ => rfl⟩
  · intro c hc hIn
    have hspc := WebhookStripe.stateProvinceCode_of_needed shipping r c hr hne hc hIn
    constructor
    · intro hinc
      simp [WebhookStripe.toAddress, hspc, hinc, truthy, hne]
    · intro hinc
      simp [WebhookStripe.toAddress, hspc, hinc, truthy, hyphenated_ne_empty]
  · intro h
    simp [WebhookStripe.toAddress, WebhookStripe.stateProvinceCode_of_not_needed shipping h]

/-- Witness for C8: country `US` with raw region `CA` yields `US-CA`. -/
theorem C8_state_province_code_witness :
    (WebhookStripe.toAddress americanHome "Jeanne Martin" "jeanne@example.org"
      "+33600000000").state_province_code = some "US-CA" :=
  ((C8_state_province_code americanHome "Jeanne Martin" "jeanne@example.org" "+33600000000"
    "CA" rfl (by decide)).1 "US" (by decide) (Or.inl rfl)).2 (by decide)

/-! ## Upstream failures -/

/-- C9 (amended): neither rate function reads the HTTP status of the upstream answer.  Whatever
the status, a body that is not JSON makes both answer 500, and so does the JSON body
`null`; any other JSON body without a non-empty `data` array makes the pricing function answer
500 and the listing function answer 200 with an empty list; and a body is treated the same
under any two statuses. -/
theorem C9_upstream_status_is_not_read (env : RateEnv) (shipping : Shipping) (status : ℕ) :
    (∃ e, GetShippingOptions.handler env (fun _ => .invalidJson status) (postEvent shipping) =
      { statusCode := 500, body := .errorMessage e }) ∧
    (∃ e, GetShippingPrice.handler env (fun _ => .invalidJson status) (postEvent shipping) =
      { statusCode := 500, body := .errorMessage e }) ∧
    GetShippingOptions.handler env (fun _ => .json status .noData) (postEvent shipping) =
      { statusCode := 200, body := .options [] } ∧
    GetShippingOptions.handler env (fun _ => .json status (.data [])) (postEvent shipping) =
      { statusCode := 200, body := .options [] } ∧
    (∃ e, GetShippingPrice.handler env (fun _ => .json status .noData) (postEvent shipping) =
      { statusCode := 500, body := .errorMessage e }) ∧
    (∃ e, GetShippingPrice.handler env (fun _ => .json status (.data [])) (postEvent shipping) =
      { statusCode := 500, body := .errorMessage e }) ∧
    (∀ (other : ℕ) (body : RateJson),
      GetShippingOptions.handler env (fun _ => .json status body) (postEvent shipping) =
        GetShippingOptions.handler env (fun _ => .json other body) (postEvent shipping) ∧
      GetShippingPrice.handler env (fun _ => .json status body) (postEvent shipping) =
        GetShippingPrice.handler env (fun _ => .json other body) (postEvent shipping)) ∧
    (∃ e, GetShippingOptions.handler env (fun _ => .json status .null) (postEvent shipping) =
      { statusCode := 500, body := .errorMessage e }) ∧
    (∃ e, GetShippingPrice.handler env (fun _ => .json status .null) (postEvent shipping) =
      { statusCode := 500, body := .errorMessage e }) := by
  refine ⟨⟨.runtime, ?_⟩, ⟨.runtime, ?_⟩, ?_, ?_, ⟨.error "no options returned", ?_⟩,
    ⟨.error "no options returned", ?_⟩, ?_, ⟨.runtime, ?_⟩, ⟨.runtime, ?_⟩⟩
  · rw [GetShippingOptions.options_handler_post env _ (postEvent shipping) shipping rfl rfl]
    rfl
  · rw [GetShippingPrice.price_handler_post env _ (postEvent shipping) shipping rfl rfl]
    rfl
  · rw [GetShippingOptions.options_handler_post env _ (postEvent shipping) shipping rfl rfl]
    rfl
  · rw [GetShippingOptions.options_handler_post env _ (postEvent shipping) shipping rfl rfl]
    rfl
  · rw [GetShippingPrice.price_handler_post env _ (postEvent shipping) shipping rfl rfl]
    rfl
  · rw [GetShippingPrice.price_handler_post env _ (postEvent shipping) shipping rfl rfl]
    rfl
  · intro other body
    constructor
    · rw [GetShippingOptions.options_handler_post env _ (postEvent shipping) shipping rfl rfl,
        GetShippingOptions.options_handler_post env _ (postEvent shipping) shipping rfl rfl]
      cases body <;> rfl
    · rw [GetShippingPrice.price_handler_post env _ (postEvent shipping) shipping rfl rfl,
        GetShippingPrice.price_handler_post env _ (postEvent shipping) shipping rfl rfl]
      cases body <;> rfl
  · rw [GetShippingOptions.options_handler_post env _ (postEvent shipping) shipping rfl rfl]
    rfl
  · rw [GetShippingPrice.price_handler_post env _ (postEvent shipping) shipping rfl rfl]
    rfl

/-- Counterexample to C9 as stated: an upstream 401 with a JSON error body and no `data` makes
the listing function answer 200 with an empty list, and an upstream 503 whose body carries
options makes the pricing function answer 200 with an amount. -/
theorem C9_counterexample :
    GetShippingOptions.handler sampleEnv (fun _ => .json 401 .noData) (postEvent homeShipping) =
      { statusCode := 200, body := .options [] } ∧
    GetShippingPrice.handler sampleEnv (fun _ => .json 503 (.data fourCarriers))
      (postEvent homeShipping) = { statusCode := 200, body := .amount (JSNum.fin 650) } := by
  decide!

/-! ## Incomplete addresses -/

/-- C10 (amended): for a confirmed home-delivery order with a rate code the webhook makes no
completeness check on the address: whenever the phone number can be read, it answers 200 and
posts a payload whose ship-to address copies the city and the country as they are, missing or
not, and the postal code with white space removed, empty when missing. -/
theorem C10_home_address_is_not_checked (env : WebhookStripe.Env)
    (stripeEvent : WebhookStripe.StripeEvent) (metadata : WebhookStripe.Metadata)
    (shipping : WebhookStripe.Shipping) (code phone : String)
    (hOrder : ConfirmedOrder stripeEvent metadata shipping code)
    (hPhone : WebhookStripe.resolvePhone stripeEvent.session shipping = .ok phone)
    (hHome : truthy shipping.id = false) :
    ∃ r d, WebhookStripe.handler env (some stripeEvent) = .ok r ∧ r.statusCode = 200 ∧
      r.body = "OK" ∧ r.dispatch = some d ∧
      d.payload.to_address.city = shipping.city ∧
      d.payload.to_address.country_code = WebhookStripe.country shipping ∧
      d.payload.to_address.postal_code = stripWhiteSpace (orElse shipping.postal_code "") ∧
      d.payload.to_service_point = none := by
  refine ⟨_, _, WebhookStripe.handler_confirmed env stripeEvent metadata shipping code phone
    hOrder hPhone, rfl, rfl, rfl, rfl, rfl, rfl, ?_⟩
  simp [WebhookStripe.buildPayload, hHome]

/-- Witness for C10: a home-delivery order to France without a city is posted with no city. -/
theorem C10_home_address_witness :
    ConfirmedOrder (completedEvent frenchHomeNoCity) (sampleMetadata frenchHomeNoCity)
      frenchHomeNoCity "colissimo:home" ∧
    ∃ r d, WebhookStripe.handler webhookEnv (some (completedEvent frenchHomeNoCity)) = .ok r ∧
      r.statusCode = 200 ∧ r.dispatch = some d ∧ d.payload.to_address.city = none := by
  have hOrder : ConfirmedOrder (completedEvent frenchHomeNoCity)
      (sampleMetadata frenchHomeNoCity) frenchHomeNoCity "colissimo:home" :=
    ⟨rfl, rfl, rfl, by decide, by decide⟩
  obtain ⟨r, d, h1, h2, _, h4, h5, _⟩ := C10_home_address_is_not_checked webhookEnv
    (completedEvent frenchHomeNoCity) (sampleMetadata frenchHomeNoCity) frenchHomeNoCity
    "colissimo:home" "+33600000000" hOrder (by decide) (by decide)
  exact ⟨hOrder, r, d, h1, h2, h4, h5⟩

/-- Counterexample to C10 as stated: a home-delivery order with no city, no postal code and no
country is answered 200 `OK`, and a payload with those fields missing or empty is posted to
the `announce` endpoint. -/
theorem C10_counterexample :
    truthy incompleteHome.id = false ∧ incompleteHome.city = none ∧
    incompleteHome.postal_code = none ∧ WebhookStripe.country incompleteHome = none ∧
    ∃ r d, WebhookStripe.handler webhookEnv (some (completedEvent incompleteHome)) = .ok r ∧
      r.statusCode = 200 ∧ r.body = "OK" ∧ r.dispatch = some d ∧
      d.endpoint = "https://panel.sendcloud.sc/api/v3/shipments/announce" ∧
      d.payload.to_address.address_line_1 = "rue Monge 12" ∧
      d.payload.to_address.city = none ∧ d.payload.to_address.postal_code = "" ∧
      d.payload.to_address.country_code = none := by
  refine ⟨by decide, rfl, rfl, by decide, _, _, rfl, rfl, rfl, rfl, ?_, ?_, ?_, ?_, ?_⟩ <;>
    decide

/-! ## The three cheapest carriers -/

theorem JSNum.le_refl_of_number {a : JSNum} (ha : a.isNaN = false) : a.le a := by
  cases a <;> simp_all [JSNum.le, JSNum.isNaN]

theorem card_carriers_of_distinct (d : List ShippingOption) (hd : DistinctCarriers d) :
    ((d.map (fun o => o.carrier.code)).toFinset).card = d.length := by
  have hnd : (d.map (fun o => o.carrier.code)).Nodup := List.pairwise_map.2 hd
  rw [List.toFinset_card_of_nodup hnd, List.length_map]

theorem carriers_cons_of_seen (d rest : List ShippingOption) (o a : ShippingOption)
    (ha : a ∈ d) (hao : a.carrier.code = o.carrier.code) :
    ((d ++ o :: rest).map (fun x => x.carrier.code)).toFinset =
      ((d ++ rest).map (fun x => x.carrier.code)).toFinset := by
  ext c
  simp only [List.mem_toFinset, List.mem_map, List.mem_append, List.mem_cons]
  constructor
  · rintro ⟨x, hx | hx | hx, rfl⟩
    · exact ⟨x, Or.inl hx, rfl⟩
    · subst hx
      exact ⟨a, Or.inl ha, hao⟩
    · exact ⟨x, Or.inr hx, rfl⟩
  · rintro ⟨x, hx | hx, rfl⟩
    · exact ⟨x, Or.inl hx, rfl⟩
    · exact ⟨x, Or.inr (Or.inr hx), rfl⟩

theorem distinct_append_ne {d t : List ShippingOption} (h : DistinctCarriers (d ++ t))
    {a r : ShippingOption} (ha : a ∈ d) (hr : r ∈ t) : a.carrier.code ≠ r.carrier.code :=
  (List.pairwise_append.1 h).2.2 a ha r hr

theorem GetShippingOptions.distinctLoop_cheapest (l : List ShippingOption) :
    ∀ (d : List ShippingOption) (seen : List String), d.length < 3 → DistinctCarriers d →
      (∀ c, c ∈ seen ↔ ∃ o ∈ d, o.carrier.code = c) → Ascending l →
      (∀ o ∈ l, (parsedPrice o).isNaN = false) →
      ∃ t, GetShippingOptions.distinctLoop l d seen = d ++ t ∧ (∀ r ∈ t, r ∈ l) ∧
        DistinctCarriers (d ++ t) ∧
        (d ++ t).length =
          min 3 (((d ++ l).map (fun o => o.carrier.code)).toFinset).card ∧
        (∀ r ∈ t, ∀ x ∈ l, x.carrier.code = r.carrier.code →
          (parsedPrice r).le (parsedPrice x)) ∧
        (∀ x ∈ l, (∀ r ∈ d ++ t, r.carrier.code ≠ x.carrier.code) →
          ∀ r ∈ t, (parsedPrice r).le (parsedPrice x)) := by
  induction l with
  | nil =>
    intro d seen hlen hd _ _ _
    refine ⟨[], by simp [GetShippingOptions.distinctLoop], by simp, by simpa using hd, ?_,
      by simp, by simp⟩
    simp only [List.append_nil]
    rw [card_carriers_of_distinct d hd]
    omega
  | cons o rest ih =>
    intro d seen hlen hd hseen hasc hnum
    have ho_le : ∀ z ∈ rest, (parsedPrice o).le (parsedPrice z) := (List.pairwise_cons.1 hasc).1
    have hasc' : Ascending rest := (List.pairwise_cons.1 hasc).2
    have hnum' : ∀ z ∈ rest, (parsedPrice z).isNaN = false :=
      fun z hz => hnum z (List.mem_cons_of_mem _ hz)
    have ho_refl : (parsedPrice o).le (parsedPrice o) :=
      JSNum.le_refl_of_number (hnum o (List.mem_cons_self _ _))
    by_cases hc : seen.contains o.carrier.code = true
    · have hmem : o.carrier.code ∈ seen := by simpa using hc
      obtain ⟨a, ha, hao⟩ := (hseen _).1 hmem
      obtain ⟨t, heq, hsub, hdist, hcard, h2, h3⟩ := ih d seen hlen hd hseen hasc' hnum'
      have hne : ¬ d.length = 3 := by omega
      refine ⟨t, ?_, fun r hr => List.mem_cons_of_mem _ (hsub r hr), hdist, ?_, ?_, ?_⟩
      · simp only [GetShippingOptions.distinctLoop, hc, if_true, if_neg hne]
        exact heq
      · rw [carriers_cons_of_seen d rest o a ha hao]
        exact hcard
      · intro r hr x hx hxr
        rcases List.mem_cons.1 hx with h | h
        · subst h
          exact absurd (hao.trans hxr) (distinct_append_ne hdist ha hr)
        · exact h2 r hr x h hxr
      · intro x hx habs r hr
        rcases List.mem_cons.1 hx with h | h
        · subst h
          exact absurd hao (habs a (List.mem_append_left _ ha))
        · exact h3 x h habs r hr
    · have hc' : seen.contains o.carrier.code = false := by simpa using hc
      have hnot : ∀ a ∈ d, a.carrier.code ≠ o.carrier.code := by
        intro a ha hEq
        apply hc
        have hmem : o.carrier.code ∈ seen := (hseen _).2 ⟨a, ha, hEq⟩
        simpa using hmem
      have hd1 : DistinctCarriers (d ++ [o]) := by
        unfold DistinctCarriers at hd ⊢
        rw [List.pairwise_append]
        refine ⟨hd, List.pairwise_singleton _ _, ?_⟩
        intro a ha b hb
        rw [List.mem_singleton] at hb
        subst hb
        exact hnot a ha
      have hlist : d ++ o :: rest = (d ++ [o]) ++ rest := by simp
      by_cases h3len : (d ++ [o]).length = 3
      · refine ⟨[o], ?_, ?_, hd1, ?_, ?_, ?_⟩
        · simp only [GetShippingOptions.distinctLoop, hc', Bool.false_eq_true, if_false,
            if_pos h3len]
        · intro r hr
          rw [List.mem_singleton] at hr
          subst hr
          exact List.mem_cons_self _ _
        · rw [h3len]
          have hle : ((d ++ [o]).map (fun x => x.carrier.code)).toFinset.card ≤
              ((d ++ o :: rest).map (fun x => x.carrier.code)).toFinset.card := by
            apply Finset.card_le_card
            intro c hcm
            simp only [List.mem_toFinset, List.mem_map] at hcm ⊢
            obtain ⟨x, hx, rfl⟩ := hcm
            refine ⟨x, ?_, rfl⟩
            rw [hlist]
            exact List.mem_append_left _ hx
          rw [card_carriers_of_distinct _ hd1, h3len] at hle
          omega
        · intro r hr x hx _
          rw [List.mem_singleton] at hr
          subst hr
          rcases List.mem_cons.1 hx with h | h
          · subst h; exact ho_refl
          · exact ho_le x h
        · intro x hx habs r hr
          rw [List.mem_singleton] at hr
          subst hr
          rcases List.mem_cons.1 hx with h | h
          · subst h
            exact absurd rfl (habs x (by simp))
          · exact ho_le x h
      · have hlen1 : (d ++ [o]).length < 3 := by
          have : (d ++ [o]).length = d.length + 1 := by simp
          omega
        have hseen1 : ∀ c, c ∈ o.carrier.code :: seen ↔ ∃ a ∈ d ++ [o], a.carrier.code = c := by
          intro c
          constructor
          · intro h
            rcases List.mem_cons.1 h with h | h
            · exact ⟨o, by simp, h.symm⟩
            · obtain ⟨a, ha, hac⟩ := (hseen c).1 h
              exact ⟨a, List.mem_append_left _ ha, hac⟩
          · rintro ⟨a, ha, hac⟩
            rcases List.mem_append.1 ha with h | h
            · exact List.mem_cons_of_mem _ ((hseen c).2 ⟨a, h, hac⟩)
            · rw [List.mem_singleton] at h
              subst h
              rw [← hac]
              exact List.mem_cons_self _ _
        obtain ⟨t, heq, hsub, hdist, hcard, h2, h3⟩ :=
          ih (d ++ [o]) (o.carrier.code :: seen) hlen1 hd1 hseen1 hasc' hnum'
        have happ : d ++ o :: t = (d ++ [o]) ++ t := by simp
        refine ⟨o :: t, ?_, ?_, ?_, ?_, ?_, ?_⟩
        · simp only [GetShippingOptions.distinctLoop, hc', Bool.false_eq_true, if_false,
            if_neg h3len]
          rw [happ]
          exact heq
        · intro r hr
          rcases List.mem_cons.1 hr with h | h
          · subst h; exact List.mem_cons_self _ _
          · exact List.mem_cons_of_mem _ (hsub r h)
        · rw [happ]; exact hdist
        · rw [happ, hlist]; exact hcard
        · intro r hr x hx hxr
          rcases List.mem_cons.1 hr with h | h
          · subst h
            rcases List.mem_cons.1 hx with h' | h'
            · subst h'; exact ho_refl
            · exact ho_le x h'
          · rcases List.mem_cons.1 hx with h' | h'
            · subst h'
              exact absurd hxr (distinct_append_ne hdist (by simp) h)
            · exact h2 r h x h' hxr
        · intro x hx habs r hr
          rcases List.mem_cons.1 hx with h' | h'
          · subst h'
            exact absurd rfl (habs x (by simp))
          · rcases List.mem_cons.1 hr with h | h
            · subst h; exact ho_le x h'
            · exact h3 x h' (fun r' hr' => habs r' (by rw [happ]; exact hr')) r h

theorem mem_homeOnly (data : List ShippingOption) (x : ShippingOption) :
    x ∈ (data.filter GetShippingOptions.baseFilter).filter
        (fun o => !o.requirements.is_service_point_required) ↔
      x ∈ data ∧ eligibleHome x = true := by
  simp only [List.mem_filter, eligibleHome, Bool.and_eq_true, and_assoc]

theorem GetShippingOptions.selectOptions_home_cheapest (shipping : Shipping)
    (data : List ShippingOption) (hHome : truthy shipping.id = false)
    (hParse : ∀ o ∈ data, eligibleHome o = true → (parsedPrice o).isNaN = false) :
    (GetShippingOptions.selectOptions shipping data).length =
      min 3 (distinctEligibleCarriers data) ∧
    (∀ r ∈ GetShippingOptions.selectOptions shipping data,
      r ∈ data ∧ eligibleHome r = true) ∧
    (∀ r ∈ GetShippingOptions.selectOptions shipping data, ∀ x ∈ data,
      eligibleHome x = true → x.carrier.code = r.carrier.code →
      (parsedPrice r).le (parsedPrice x)) ∧
    (∀ x ∈ data, eligibleHome x = true →
      (∀ r ∈ GetShippingOptions.selectOptions shipping data,
        r.carrier.code ≠ x.carrier.code) →
      ∀ r ∈ GetShippingOptions.selectOptions shipping data,
        (parsedPrice r).le (parsedPrice x)) := by
  have hnumH : ∀ o ∈ (data.filter GetShippingOptions.baseFilter).filter
      (fun o => !o.requirements.is_service_point_required),
      (parsedPrice o).isNaN = false := by
    intro o ho
    obtain ⟨h1, h2⟩ := (mem_homeOnly data o).1 ho
    exact hParse o h1 h2
  have hmemS : ∀ x, x ∈ jsSort byPrice ((data.filter GetShippingOptions.baseFilter).filter
      (fun o => !o.requirements.is_service_point_required)) ↔
      x ∈ data ∧ eligibleHome x = true := by
    intro x
    rw [mem_jsSort, mem_homeOnly]
  obtain ⟨t, heq, hsub, _, hcard, h2, h3⟩ :=
    GetShippingOptions.distinctLoop_cheapest
      (jsSort byPrice ((data.filter GetShippingOptions.baseFilter).filter
        (fun o => !o.requirements.is_service_point_required)))
      [] [] (by simp) (by simp [DistinctCarriers]) (by simp)
      (jsSort_ascending _ hnumH)
      (fun o ho => hnumH o ((mem_jsSort byPrice _ o).1 ho))
  have hsel : GetShippingOptions.selectOptions shipping data = jsSort byPrice t := by
    simp only [GetShippingOptions.selectOptions, hHome]
    simp only [Bool.false_eq_true, if_false]
    rw [heq]
    simp
  have hmemT : ∀ r, r ∈ jsSort byPrice t ↔ r ∈ t := fun r => mem_jsSort byPrice t r
  simp only [List.nil_append] at hcard h3
  rw [hsel]
  refine ⟨?_, ?_, ?_, ?_⟩
  · rw [length_jsSort, hcard]
    have hfin : ((jsSort byPrice ((data.filter GetShippingOptions.baseFilter).filter
        (fun o => !o.requirements.is_service_point_required))).map
          (fun o => o.carrier.code)).toFinset =
        ((data.filter eligibleHome).map (fun o => o.carrier.code)).toFinset := by
      ext c
      simp only [List.mem_toFinset, List.mem_map, hmemS, List.mem_filter]
    rw [hfin, List.card_toFinset]
    rfl
  · intro r hr
    exact (hmemS r).1 (hsub r ((hmemT r).1 hr))
  · intro r hr x hx hel hxr
    exact h2 r ((hmemT r).1 hr) x ((hmemS x).2 ⟨hx, hel⟩) hxr
  · intro x hx hel habs r hr
    exact h3 x ((hmemS x).2 ⟨hx, hel⟩) (fun r' hr' => habs r' ((hmemT r').2 hr')) r
      ((hmemT r).1 hr)

theorem GetShippingOptions.fetchOptions_error_or_select (shipping : Shipping)
    (outcome : FetchOutcome) :
    (GetShippingOptions.fetchOptions shipping outcome = .error .runtime ∧
      upstreamData outcome = []) ∨
    GetShippingOptions.fetchOptions shipping outcome =
      .ok { statusCode := 200
            body := .options (GetShippingOptions.selectOptions shipping
              (upstreamData outcome)) } := by
  have hnil : GetShippingOptions.selectOptions shipping [] = [] := by
    by_cases hid : truthy shipping.id = true <;>
      simp [GetShippingOptions.selectOptions, hid, jsSort, GetShippingOptions.distinctLoop]
  cases outcome with
  | networkError => left; exact ⟨rfl, rfl⟩
  | invalidJson s => left; exact ⟨rfl, rfl⟩
  | json s body =>
    cases body with
    | null => left; exact ⟨rfl, rfl⟩
    | noData =>
      right
      simp only [upstreamData, hnil]
      rfl
    | data l =>
      cases l with
      | nil =>
        right
        simp only [upstreamData, hnil]
        rfl
      | cons a t =>
        right
        simp [GetShippingOptions.fetchOptions, upstreamData]

theorem hasFirstQuotePrice_iff (o : ShippingOption) (v : String) :
    HasFirstQuotePrice o v ↔ firstQuoteValue o = some v := by
  unfold HasFirstQuotePrice firstQuoteValue
  constructor
  · rintro ⟨q, rest, p, t, hq, hp, ht, hv⟩
    simp only [hq, hp, ht, hv]
  · intro h
    cases hq : o.quotes with
    | none => simp [hq] at h
    | some qs =>
      cases qs with
      | nil => simp [hq] at h
      | cons q rest =>
        cases hp : q.price with
        | none => simp [hq, hp] at h
        | some p =>
          cases ht : p.total with
          | none => simp [hq, hp, ht] at h
          | some t =>
            simp only [hq, hp, ht] at h
            exact ⟨q, rest, p, t, rfl, hp, ht, h⟩

theorem eligibleQuote_iff (o : ShippingOption) : EligibleQuote o ↔ eligibleHome o = true := by
  have hquotes : ∀ v, firstQuoteValue o = some v → o.quotes.isSome = true := by
    intro v hv
    cases hq : o.quotes with
    | none => simp [firstQuoteValue, hq] at hv
    | some qs => rfl
  have hletter : startsWith o.code "sendcloud:letter" = true ↔
      "sendcloud:letter".toList <+: o.code.toList := by
    unfold startsWith
    exact List.isPrefixOf_iff_prefix
  unfold EligibleQuote eligibleHome GetShippingOptions.baseFilter
  constructor
  · rintro ⟨⟨v, hv⟩, hcode, hsp⟩
    have hfv := (hasFirstQuotePrice_iff o v).1 hv
    have hnot : startsWith o.code "sendcloud:letter" = false := by
      cases hs : startsWith o.code "sendcloud:letter" with
      | false => rfl
      | true => exact absurd (hletter.1 hs) hcode
    simp [hquotes v hfv, hfv, hnot, hsp]
  · intro h
    simp only [Bool.and_eq_true, Bool.not_eq_true', Option.isSome_iff_exists] at h
    obtain ⟨⟨⟨_, v, hv⟩, hnot⟩, hsp⟩ := h
    refine ⟨⟨v, (hasFirstQuotePrice_iff o v).2 hv⟩, ?_, hsp⟩
    intro hpre
    rw [hletter.2 hpre] at hnot
    exact absurd hnot (by simp)

theorem quotedAt_parsedPrice (o : ShippingOption) (h : EligibleQuote o) :
    QuotedAt o (parsedPrice o) := by
  obtain ⟨⟨v, hv⟩, _, _⟩ := h
  refine ⟨v, hv, ?_⟩
  simp only [parsedPrice, (hasFirstQuotePrice_iff o v).1 hv, parseFloatOpt]

theorem parsedPrice_of_quotedAt (o : ShippingOption) (x : JSNum) (h : QuotedAt o x) :
    parsedPrice o = x := by
  obtain ⟨v, hv, hx⟩ := h
  simp only [parsedPrice, (hasFirstQuotePrice_iff o v).1 hv, parseFloatOpt, hx]

theorem eligibleCarrierCount_eq (data : List ShippingOption) :
    EligibleCarrierCount data (distinctEligibleCarriers data) := by
  refine ⟨((data.filter eligibleHome).map (fun o => o.carrier.code)).toFinset, ?_, ?_⟩
  · intro c
    simp only [List.mem_toFinset, List.mem_map, List.mem_filter]
    constructor
    · rintro ⟨o, ⟨ho, hel⟩, hc⟩
      exact ⟨o, ho, (eligibleQuote_iff o).2 hel, hc⟩
    · rintro ⟨o, ho, hel, hc⟩
      exact ⟨o, ⟨ho, (eligibleQuote_iff o).1 hel⟩, hc⟩
  · rw [List.card_toFinset]
    rfl

/-- C11: in home-delivery mode, when the price of every eligible upstream quote (a non-null
first-quote price, a code that does not start with `sendcloud:letter`, no service point
required) parses to a number, the listing function answers 500 only when the upstream answer
carries no option at all, and otherwise answers 200 with a list of eligible upstream quotes
that has exactly `min 3 k` entries, `k` being the number of distinct carriers among the
eligible quotes; each entry is priced no higher than any eligible quote of the same carrier;
and every eligible quote of a carrier absent from the list is priced at least as high as every
entry. -/
theorem C11_home_options_three_cheapest_carriers (env : RateEnv)
    (fetch : RateRequest → FetchOutcome) (event : Event) (shipping : Shipping)
    (hMethod : event.httpMethod = "POST")
    (hPayload : event.payload = some { shipping := some shipping })
    (hHome : truthy shipping.id = false)
    (hParse : ∀ o ∈ upstreamData (fetch (GetShippingOptions.bodyV3 env shipping)),
      EligibleQuote o → ∃ x, QuotedAt o x ∧ x.isNaN = false) :
    (upstreamData (fetch (GetShippingOptions.bodyV3 env shipping)) = [] ∧
      ∃ e, GetShippingOptions.handler env fetch event =
        { statusCode := 500, body := .errorMessage e }) ∨
    ∃ opts, GetShippingOptions.handler env fetch event =
        { statusCode := 200, body := .options opts } ∧
      (∃ k, EligibleCarrierCount
          (upstreamData (fetch (GetShippingOptions.bodyV3 env shipping))) k ∧
        opts.length = min 3 k) ∧
      (∀ r ∈ opts, r ∈ upstreamData (fetch (GetShippingOptions.bodyV3 env shipping)) ∧
        EligibleQuote r) ∧
      (∀ r ∈ opts, ∀ x ∈ upstreamData (fetch (GetShippingOptions.bodyV3 env shipping)),
        EligibleQuote x → x.carrier.code = r.carrier.code →
        ∃ pr px, QuotedAt r pr ∧ QuotedAt x px ∧ pr.le px) ∧
      (∀ x ∈ upstreamData (fetch (GetShippingOptions.bodyV3 env shipping)),
        EligibleQuote x → (∀ r ∈ opts, r.carrier.code ≠ x.carrier.code) →
        ∀ r ∈ opts, ∃ pr px, QuotedAt r pr ∧ QuotedAt x px ∧ pr.le px) := by
  rw [GetShippingOptions.options_handler_post env fetch event shipping hMethod hPayload]
  rcases GetShippingOptions.fetchOptions_error_or_select shipping
    (fetch (GetShippingOptions.bodyV3 env shipping)) with ⟨h, hnil⟩ | h
  · left
    exact ⟨hnil, .runtime, by rw [h]⟩
  · right
    have hParse' : ∀ o ∈ upstreamData (fetch (GetShippingOptions.bodyV3 env shipping)),
        eligibleHome o = true → (parsedPrice o).isNaN = false := by
      intro o ho hel
      obtain ⟨x, hx, hnum⟩ := hParse o ho ((eligibleQuote_iff o).2 hel)
      rw [parsedPrice_of_quotedAt o x hx]
      exact hnum
    obtain ⟨h1, h2, h3, h4⟩ := GetShippingOptions.selectOptions_home_cheapest shipping
      (upstreamData (fetch (GetShippingOptions.bodyV3 env shipping))) hHome hParse'
    refine ⟨_, by rw [h], ⟨_, eligibleCarrierCount_eq _, h1⟩, ?_, ?_, ?_⟩
    · intro r hr
      exact ⟨(h2 r hr).1, (eligibleQuote_iff r).2 (h2 r hr).2⟩
    · intro r hr x hx hel hxr
      exact ⟨_, _, quotedAt_parsedPrice r ((eligibleQuote_iff r).2 (h2 r hr).2),
        quotedAt_parsedPrice x hel, h3 r hr x hx ((eligibleQuote_iff x).1 hel) hxr⟩
    · intro x hx hel habs r hr
      exact ⟨_, _, quotedAt_parsedPrice r ((eligibleQuote_iff r).2 (h2 r hr).2),
        quotedAt_parsedPrice x hel, h4 x hx ((eligibleQuote_iff x).1 hel) habs r hr⟩

/-- Witness for C11: four eligible carriers, so the list has three entries, each of them an
eligible quote. -/
theorem C11_home_options_witness :
    truthy homeShipping.id = false ∧
    (∀ o ∈ fourCarriers, EligibleQuote o → ∃ x, QuotedAt o x ∧ x.isNaN = false) ∧
    EligibleCarrierCount fourCarriers 4 ∧
    ∃ opts, GetShippingOptions.handler sampleEnv (fun _ => .json 200 (.data fourCarriers))
        (postEvent homeShipping) = { statusCode := 200, body := .options opts } ∧
      (∃ k, EligibleCarrierCount fourCarriers k ∧ opts.length = min 3 k) ∧
      ∀ r ∈ opts, r ∈ fourCarriers ∧ EligibleQuote r := by
  have hnum : ∀ o ∈ fourCarriers, eligibleHome o = true → (parsedPrice o).isNaN = false := by
    decide!
  have hParse : ∀ o ∈ fourCarriers, EligibleQuote o → ∃ x, QuotedAt o x ∧ x.isNaN = false :=
    fun o ho hel => ⟨parsedPrice o, quotedAt_parsedPrice o hel,
      hnum o ho ((eligibleQuote_iff o).1 hel)⟩
  have hk : EligibleCarrierCount fourCarriers 4 := eligibleCarrierCount_eq fourCarriers
  refine ⟨by decide, hParse, hk, ?_⟩
  rcases C11_home_options_three_cheapest_carriers sampleEnv
    (fun _ => .json 200 (.data fourCarriers)) (postEvent homeShipping) homeShipping rfl rfl
    (by decide) hParse with ⟨hnil, _⟩ | ⟨opts, h0, h1, h2, _, _⟩
  · exact absurd hnil (by decide)
  · exact ⟨opts, h0, h1, h2⟩

end Yes
